import Mathlib

/-!
# pico_fota_example: the download / update orchestration of `example_app/main.c`

A shallow embedding of `wifi_init`, `connect_to_server`, `download_file` and
`download_task`.  Every call into the network stack, the radio driver, the
flash / bootloader library and the scheduler is an external call: the value it
returns is read from a `World` (a script of return values), and the call is
recorded, with its arguments and its return value, in a trace of `Event`s.
The C control flow is translated statement by statement; loops become
recursion over the script they consume.

Integer variables are mathematical integers: `int` values (`len_bytes`,
`sockfd`, return codes) are `Int`, the `size_t` byte offset and the chunk
counter are `Nat`.  No wrap-around is modelled: `flash_offset` grows by at most
`MAX_RECV_DATA_SIZE` per chunk, so a single session would have to write 4 GiB
to reach the range of a 32-bit `size_t`.
-/

namespace PicoFota

/-! ## Constants -/

/-- Modelled from the spec: `PFB_ALIGN_SIZE` comes from `pico_fota_bootloader.h`,
which is not among the sources; it is the alignment granularity of the flash
write primitive `pfb_write_to_flash_aligned_256_bytes`, 256 bytes. -/
def PFB_ALIGN_SIZE : Nat := 256

/-- Max number of bytes we can receive at once (main.c:59). -/
def MAX_RECV_DATA_SIZE : Nat := 4 * PFB_ALIGN_SIZE

/-- Message sent to the server that indicates that we are ready to receive the
next chunk of data (main.c:64). -/
def READY_FOR_NEXT_CHUNK_MESSAGE : List Char := ['R', 'e', 'a', 'd', 'y']

/-- The C `strlen` of a message. -/
def strlen (s : List Char) : Nat := s.length

/-! ## Log lines -/

/-- First argument of `LOG`. -/
inductive Module
  | wifi
  | download
  | main_app
  deriving DecidableEq

/-- Second argument of `LOG`. -/
inductive Level
  | ERR
  | WRN
  | INF
  deriving DecidableEq

/-- The format strings passed to `LOG`, with their arguments. -/
inductive Msg
  /-- "Failed to initialise CYW43 modem" -/
  | cyw43_failed
  /-- "Connecting to \"SSID\"..." -/
  | wifi_connecting
  /-- "Failed to connect to \"SSID\", retrying in %d ms" -/
  | wifi_retrying (delay_time_ms : Nat)
  /-- "Connected to \"SSID\"" -/
  | wifi_connected
  /-- "getaddrinfo() failed" -/
  | getaddrinfo_failed
  /-- "socket() failed" -/
  | socket_failed
  /-- "connect() failed" -/
  | connect_failed
  /-- "Failed to connect to the TCP server" -/
  | server_unreachable
  /-- "Connecting to the TCP server: %s" -/
  | server_connecting (addr : Nat)
  /-- "Retrying connecting to the TCP server" -/
  | server_retrying
  /-- "recv() failed" -/
  | recv_failed
  /-- "Connection closed" -/
  | connection_closed
  /-- "pfb_write_to_flash_aligned_256_bytes() failed" -/
  | write_failed
  /-- "send() failed" -/
  | send_failed
  /-- "Downloaded %zu bytes" -/
  | downloaded (flash_offset : Nat)
  /-- "This is the download task" -/
  | download_task_started
  /-- "#### RUNNING ON A NEW FIRMWARE ####" -/
  | new_firmware
  /-- "#### ROLLBACK PERFORMED ####" -/
  | rollback_performed
  /-- "Failed to download firmware" -/
  | download_failed
  /-- "Performing update, firmware size: %zu bytes"; `none` is an
  uninitialised `binary_size`. -/
  | performing_update (binary_size : Option Nat)
  deriving DecidableEq

/-! ## Traces -/

/-- One external call, with its arguments and the value it returned.  The four
`call_` / `ret_` events mark the entry and the return of the two functions of
`main.c` that the orchestration claims speak about. -/
inductive Event
  | LOG (module : Module) (level : Level) (msg : Msg)
  | cyw43_arch_init (ret : Int)
  | exit (status : Int)
  | cyw43_arch_enable_sta_mode
  | cyw43_arch_wifi_connect_timeout_ms (timeout_ms : Nat) (ret : Int)
  | sleep_ms (ms : Nat)
  | getaddrinfo (ret : Int)
  /-- `assigned` tells whether `servinfo` had been set by `getaddrinfo`. -/
  | freeaddrinfo (assigned : Bool)
  | socket (ret : Int)
  | connect (sockfd : Int) (ai_addr : Nat) (ret : Int)
  /-- `close(sockfd)`; `none` is a `sockfd` that was never assigned. -/
  | close (sockfd : Option Int)
  | inet_ntop (ai_addr : Nat)
  | pfb_initialize_download_slot
  | vTaskDelay (ticks : Nat)
  | recv (sockfd : Int) (len : Nat) (ret : Int)
  | pfb_write_to_flash_aligned_256_bytes (offset : Nat) (len : Nat) (ret : Int)
  | send (sockfd : Int) (msg : List Char) (len : Nat) (ret : Int)
  | pfb_firmware_commit
  | pfb_is_after_firmware_update (ret : Bool)
  | pfb_is_after_rollback (ret : Bool)
  | pfb_mark_download_slot_as_valid
  | pfb_perform_update
  | call_connect_to_server
  | ret_connect_to_server (ret : Int)
  | call_download_file
  | ret_download_file (ret : Int)
  deriving DecidableEq

/-! ## The scripted environment -/

/-- One entry of the list `getaddrinfo` stores in `servinfo`, with what
`socket()` and `connect()` return when they are called for it. -/
structure AddrInfo where
  ai_addr : Nat
  socket : Int
  connect : Int
  deriving DecidableEq

/-- What one call of `getaddrinfo` does: its return value (0 on success) and
the candidate list it stores in `servinfo`. -/
structure GetAddrInfo where
  ret : Int
  servinfo : List AddrInfo
  deriving DecidableEq

/-- What the external calls of one iteration of the transfer loop return:
`recv` (-1, 0, or the number of bytes received), and, when they are reached,
`pfb_write_to_flash_aligned_256_bytes` (0 on success) and `send` (-1 on
error). -/
structure Chunk where
  recv : Int
  write : Int
  send : Int
  deriving DecidableEq

/-- The return values of all external calls.  The lists are consumed front to
back, one entry per call (`getaddrinfo`) or per loop iteration (`chunks`,
`wifi_connect`); a call that finds its list empty never returns. -/
structure World where
  cyw43_arch_init : Int
  wifi_connect : List Int
  is_after_firmware_update : Bool
  is_after_rollback : Bool
  getaddrinfo : List GetAddrInfo
  chunks : List Chunk
  deriving DecidableEq

/-! ## `connect_to_server` (main.c:106-153) -/

/-- How the `for` loop over the candidates ends. -/
inductive ForExit
  /-- `break` at line 136: `p` is the candidate, `sockfd` its connected socket. -/
  | connected (p : AddrInfo) (sockfd : Int)
  /-- `p == NULL`; `sockfd` holds what was last assigned to it, if anything. -/
  | exhausted (sockfd : Option Int)
  deriving DecidableEq

/-- The `for` loop of lines 124-137, started at candidate list `p` with the
current content of the variable `sockfd`. -/
def connect_to_server_for : List AddrInfo → Option Int → ForExit × List Event
  | [], sockfd => (.exhausted sockfd, [])
  | p :: ai_next, _ =>
    if p.socket = -1 then
      let r := connect_to_server_for ai_next (some p.socket)
      (r.1, .socket p.socket :: .LOG .download .WRN .socket_failed :: r.2)
    else if p.connect = -1 then
      let r := connect_to_server_for ai_next (some p.socket)
      (r.1, .socket p.socket :: .connect p.socket p.ai_addr p.connect
              :: .close (some p.socket) :: .LOG .download .WRN .connect_failed :: r.2)
    else
      (.connected p p.socket, [.socket p.socket, .connect p.socket p.ai_addr p.connect])

/-- Connects to the TCP server.  Returns the file descriptor `socket()`
returned or -1 in case of an error, and the trace of the call.  `g` is what
the call of `getaddrinfo` at line 117 does. -/
def connect_to_server (g : GetAddrInfo) : Int × List Event :=
  if g.ret ≠ 0 then
    (-1, [.call_connect_to_server, .getaddrinfo g.ret,
          .LOG .download .ERR .getaddrinfo_failed, .freeaddrinfo false,
          .ret_connect_to_server (-1)])
  else
    match connect_to_server_for g.servinfo none with
    | (.exhausted sockfd, t) =>
      (-1, [.call_connect_to_server, .getaddrinfo g.ret] ++ t ++
           [.close sockfd, .freeaddrinfo true,
            .LOG .download .ERR .server_unreachable, .ret_connect_to_server (-1)])
    | (.connected p sockfd, t) =>
      (sockfd, [.call_connect_to_server, .getaddrinfo g.ret] ++ t ++
           [.inet_ntop p.ai_addr, .LOG .download .INF (.server_connecting p.ai_addr),
            .freeaddrinfo true, .ret_connect_to_server sockfd])

/-! ## `download_file` (main.c:158-202) -/

/-- The local variables of `download_file` when its transfer loop is left,
what is left of the script, and the trace of the loop.  `exited = false`
means that the loop was not left: `recv` never returned. -/
structure LoopResult where
  exited : Bool
  ret : Int
  out_binary_size : Option Nat
  flash_offset : Nat
  counter : Nat
  chunks : List Chunk
  trace : List Event
  deriving DecidableEq

/-- The `while (1)` loop of lines 172-198 on socket `sockfd`, entered with the
given values of `flash_offset`, `counter`, `ret` and `*out_binary_size`. -/
def download_file_loop (sockfd : Int) :
    List Chunk → Nat → Nat → Int → Option Nat → LoopResult
  | [], flash_offset, counter, ret, out =>
    { exited := false, ret := ret, out_binary_size := out,
      flash_offset := flash_offset, counter := counter, chunks := [], trace := [] }
  | c :: rest, flash_offset, counter, ret, out =>
    let len_bytes := c.recv
    if len_bytes = -1 then
      { exited := true, ret := ret, out_binary_size := out,
        flash_offset := flash_offset, counter := counter, chunks := rest,
        trace := [.recv sockfd MAX_RECV_DATA_SIZE len_bytes,
                  .LOG .download .ERR .recv_failed] }
    else if len_bytes = 0 then
      { exited := true, ret := if flash_offset = 0 then 1 else 0,
        out_binary_size := some flash_offset,
        flash_offset := flash_offset, counter := counter, chunks := rest,
        trace := [.recv sockfd MAX_RECV_DATA_SIZE len_bytes,
                  .LOG .download .INF .connection_closed] }
    else if c.write ≠ 0 then
      { exited := true, ret := ret, out_binary_size := out,
        flash_offset := flash_offset, counter := counter, chunks := rest,
        trace := [.recv sockfd MAX_RECV_DATA_SIZE len_bytes,
                  .pfb_write_to_flash_aligned_256_bytes flash_offset len_bytes.toNat c.write,
                  .LOG .download .ERR .write_failed] }
    else if c.send = -1 then
      { exited := true, ret := ret, out_binary_size := out,
        flash_offset := flash_offset + len_bytes.toNat, counter := counter,
        chunks := rest,
        trace := [.recv sockfd MAX_RECV_DATA_SIZE len_bytes,
                  .pfb_write_to_flash_aligned_256_bytes flash_offset len_bytes.toNat c.write,
                  .send sockfd READY_FOR_NEXT_CHUNK_MESSAGE
                    (strlen READY_FOR_NEXT_CHUNK_MESSAGE) c.send,
                  .LOG .download .ERR .send_failed] }
    else
      let r := download_file_loop sockfd rest (flash_offset + len_bytes.toNat)
        (counter + 1) ret out
      { r with trace :=
          [.recv sockfd MAX_RECV_DATA_SIZE len_bytes,
           .pfb_write_to_flash_aligned_256_bytes flash_offset len_bytes.toNat c.write,
           .send sockfd READY_FOR_NEXT_CHUNK_MESSAGE
             (strlen READY_FOR_NEXT_CHUNK_MESSAGE) c.send] ++
          (if (counter + 1) % 10 = 0 then
            [.LOG .download .INF (.downloaded (flash_offset + len_bytes.toNat))]
           else []) ++ r.trace }

/-- The `while` loop of lines 166-169: `connect_to_server` is called until it
returns a socket; `tick` is `portTICK_PERIOD_MS`.  Returns the socket (`none`
when `getaddrinfo` never returns), the unused `getaddrinfo` results and the
trace. -/
def download_file_connect (tick : Nat) :
    List GetAddrInfo → Option Int × List GetAddrInfo × List Event
  | [] => (none, [], [.call_connect_to_server])
  | g :: rest =>
    let r := connect_to_server g
    if r.1 = -1 then
      let k := download_file_connect tick rest
      (k.1, k.2.1, r.2 ++ [.vTaskDelay (10000 / tick),
                           .LOG .download .INF .server_retrying] ++ k.2.2)
    else
      (some r.1, rest, r.2)

/-- What one call of `download_file` leaves behind.  `ret = none` means that
the call never returned; `flash_offset` is the local variable when the
transfer loop was left (or where the call stalled). -/
structure FileResult where
  ret : Option Int
  out_binary_size : Option Nat
  flash_offset : Nat
  world : World
  trace : List Event
  deriving DecidableEq

/-- Connects to the TCP server and downloads the binary file.  `out` is the
content of `*out_binary_size` before the call (`none`: uninitialised). -/
def download_file (tick : Nat) (w : World) (out : Option Nat) : FileResult :=
  let k := download_file_connect tick w.getaddrinfo
  match k.1 with
  | none =>
    { ret := none, out_binary_size := out, flash_offset := 0,
      world := { w with getaddrinfo := k.2.1 },
      trace := [.call_download_file, .pfb_initialize_download_slot] ++ k.2.2 }
  | some sockfd =>
    let r := download_file_loop sockfd w.chunks 0 0 1 out
    if r.exited then
      { ret := some r.ret, out_binary_size := r.out_binary_size,
        flash_offset := r.flash_offset,
        world := { w with getaddrinfo := k.2.1, chunks := r.chunks },
        trace := [.call_download_file, .pfb_initialize_download_slot] ++ k.2.2 ++
                 r.trace ++ [.close (some sockfd), .ret_download_file r.ret] }
    else
      { ret := none, out_binary_size := r.out_binary_size,
        flash_offset := r.flash_offset,
        world := { w with getaddrinfo := k.2.1, chunks := r.chunks },
        trace := [.call_download_file, .pfb_initialize_download_slot] ++ k.2.2 ++
                 r.trace }

/-! ## `wifi_init` (main.c:82-100) -/

/-- How a function of the task ends: it returns, it calls `exit`, an external
call inside it never returns, or (for the fuelled session loop only) the fuel
ran out. -/
inductive Ending
  | returned
  | exited (status : Int)
  | stalled
  | out_of_fuel
  deriving DecidableEq

/-- The `while` loop of lines 90-97 over the return values of the successive
`cyw43_arch_wifi_connect_timeout_ms` calls.  Returns whether the loop was
left, the unused return values and the trace. -/
def wifi_init_loop : List Int → Bool × List Int × List Event
  | [] => (false, [], [])
  | r :: rest =>
    if r ≠ 0 then
      let delay_time_ms := 1000
      let k := wifi_init_loop rest
      (k.1, k.2.1, .cyw43_arch_wifi_connect_timeout_ms 30000 r
                    :: .LOG .wifi .WRN (.wifi_retrying delay_time_ms)
                    :: .sleep_ms delay_time_ms :: k.2.2)
    else
      (true, rest, [.cyw43_arch_wifi_connect_timeout_ms 30000 r])

/-- What a call of `wifi_init` or `download_task` leaves behind. -/
structure TaskResult where
  ending : Ending
  world : World
  trace : List Event
  deriving DecidableEq

/-- Initializes Wi-Fi. -/
def wifi_init (w : World) : TaskResult :=
  if w.cyw43_arch_init ≠ 0 then
    { ending := .exited 1, world := w,
      trace := [.cyw43_arch_init w.cyw43_arch_init,
                .LOG .wifi .ERR .cyw43_failed, .exit 1] }
  else
    let k := wifi_init_loop w.wifi_connect
    if k.1 then
      { ending := .returned, world := { w with wifi_connect := k.2.1 },
        trace := [.cyw43_arch_init w.cyw43_arch_init, .cyw43_arch_enable_sta_mode,
                  .LOG .wifi .INF .wifi_connecting] ++ k.2.2 ++
                 [.LOG .wifi .INF .wifi_connected] }
    else
      { ending := .stalled, world := { w with wifi_connect := k.2.1 },
        trace := [.cyw43_arch_init w.cyw43_arch_init, .cyw43_arch_enable_sta_mode,
                  .LOG .wifi .INF .wifi_connecting] ++ k.2.2 }

/-! ## `download_task` (main.c:209-231) -/

/-- What the session loop of `download_task` leaves behind: how it ended, the
variable `binary_size`, the world and the trace. -/
structure SessionsResult where
  ending : Ending
  binary_size : Option Nat
  world : World
  trace : List Event
  deriving DecidableEq

/-- The `while (download_file(&binary_size))` loop of lines 223-225, with at
most `fuel` calls of `download_file`. -/
def download_task_loop (tick : Nat) : Nat → World → Option Nat → SessionsResult
  | 0, w, binary_size =>
    { ending := .out_of_fuel, binary_size := binary_size, world := w, trace := [] }
  | fuel + 1, w, binary_size =>
    let r := download_file tick w binary_size
    match r.ret with
    | none =>
      { ending := .stalled, binary_size := r.out_binary_size, world := r.world,
        trace := r.trace }
    | some ret =>
      if ret ≠ 0 then
        let k := download_task_loop tick fuel r.world r.out_binary_size
        { k with trace := r.trace ++ [.LOG .download .ERR .download_failed] ++ k.trace }
      else
        { ending := .returned, binary_size := r.out_binary_size, world := r.world,
          trace := r.trace }

/-- Firmware update task.  Every call of `download_file` that returns consumes
an entry of `chunks`, so `chunks.length + 1` calls are enough fuel. -/
def download_task (tick : Nat) (w : World) : TaskResult :=
  let i := wifi_init w
  match i.ending with
  | .returned =>
    let w1 := i.world
    let pre : List Event :=
      [.LOG .download .INF .download_task_started] ++ i.trace ++
      [.pfb_firmware_commit,
       .pfb_is_after_firmware_update w1.is_after_firmware_update] ++
      (if w1.is_after_firmware_update then [.LOG .download .INF .new_firmware] else []) ++
      [.pfb_is_after_rollback w1.is_after_rollback] ++
      (if w1.is_after_rollback then [.LOG .download .WRN .rollback_performed] else [])
    let s := download_task_loop tick (w1.chunks.length + 1) w1 none
    match s.ending with
    | .returned =>
      { ending := .returned, world := s.world,
        trace := pre ++ s.trace ++
          [.LOG .download .INF (.performing_update s.binary_size),
           .pfb_mark_download_slot_as_valid, .pfb_perform_update] }
    | e => { ending := e, world := s.world, trace := pre ++ s.trace }
  | e =>
    { ending := e, world := i.world,
      trace := [.LOG .download .INF .download_task_started] ++ i.trace }

/-! # Reading traces: the vocabulary of the claims -/

/-- Whether an event is a log line of the given level. -/
def Event.hasLevel (l : Level) : Event → Bool
  | .LOG _ l' _ => l' = l
  | _ => false

/-- What `wifi_init` records for one failed association attempt that returned `r`. -/
def wifiRetry (r : Int) : List Event :=
  [.cyw43_arch_wifi_connect_timeout_ms 30000 r, .LOG .wifi .WRN (.wifi_retrying 1000),
   .sleep_ms 1000]

/-- A temporal property as an automaton: `step s e` is the state after event
`e` in state `s`, or `none` when `e` violates the property there.
`runMonitor` is the state after a whole trace. -/
def runMonitor {σ : Type} (step : σ → Event → Option σ) : σ → List Event → Option σ
  | s, [] => some s
  | s, e :: t =>
    match step s e with
    | none => none
    | some s' => runMonitor step s' t

/-- The length of a flash write that succeeded. -/
def Event.written : Event → Option Nat
  | .pfb_write_to_flash_aligned_256_bytes _ len ret => if ret = 0 then some len else none
  | _ => none

/-- The lengths of the successful flash writes of a trace, in order. -/
def writtenLengths (t : List Event) : List Nat := t.filterMap Event.written

/-- Whether an event is a send of the acknowledgement "Ready". -/
def Event.isAck : Event → Bool
  | .send _ msg len _ =>
    msg = READY_FOR_NEXT_CHUNK_MESSAGE ∧ len = strlen READY_FOR_NEXT_CHUNK_MESSAGE
  | _ => false

/-- Stop-and-wait order of writes and acknowledgements.  The state tells
whether a successful write still waits for its acknowledgement: no write may
be issued while one is waiting, and a send must be the acknowledgement of a
waiting write. -/
def ackStep (waiting : Bool) : Event → Option Bool
  | .pfb_write_to_flash_aligned_256_bytes _ _ ret =>
    if waiting then none else some (decide (ret = 0))
  | .send sockfd msg len ret =>
    if waiting ∧ (Event.send sockfd msg len ret).isAck then some false else none
  | _ => some waiting

/-- The calls on the connection and on the flash that the transfer loop and
the end of `download_file` make. -/
inductive Op
  | recv
  | write
  | send
  | close
  deriving DecidableEq

/-- The operation an event stands for, if any. -/
def Event.op : Event → Option Op
  | .recv _ _ _ => some .recv
  | .pfb_write_to_flash_aligned_256_bytes _ _ _ => some .write
  | .send _ _ _ _ => some .send
  | .close _ => some .close
  | _ => none

/-- The operations of a trace, in order. -/
def ops (t : List Event) : List Op := t.filterMap Event.op

/-- Whether an event is a call of `close`. -/
def Event.isClose : Event → Bool
  | .close _ => true
  | _ => false

/-- A chunk that passes through the loop body: data was received, written and
acknowledged. -/
def Chunk.transferred (c : Chunk) : Prop :=
  c.recv ≠ -1 ∧ c.recv ≠ 0 ∧ c.write = 0 ∧ c.send ≠ -1

instance (c : Chunk) : Decidable c.transferred := by
  unfold Chunk.transferred; infer_instance

/-- A chunk on which `recv`, the flash write or the acknowledgement `send`
reports an error. -/
def Chunk.fails (c : Chunk) : Prop :=
  c.recv = -1 ∨ (c.recv ≠ 0 ∧ (c.write ≠ 0 ∨ c.send = -1))

instance (c : Chunk) : Decidable c.fails := by
  unfold Chunk.fails; infer_instance

/-- The operations the loop body performs on a failing chunk. -/
def Chunk.failedOps (c : Chunk) : List Op :=
  if c.recv = -1 then [.recv]
  else if c.write ≠ 0 then [.recv, .write]
  else [.recv, .write, .send]

/-- Whether an event is a `recv` that returned 0: the peer closed. -/
def Event.isPeerClose : Event → Bool
  | .recv _ _ ret => ret = 0
  | _ => false

/-- Whether `recv` returned 0 somewhere in a trace. -/
def cleanClose (t : List Event) : Bool := t.any Event.isPeerClose

/-- Where and what the flash writes write.  The state is the offset at which
the next write has to start and the return value of the last `recv` that was
not yet written: a write must start where the one before it ended (the first
at the initial offset) and must be given as its length exactly the number of
bytes that `recv` returned. -/
def writeStep (s : Nat × Option Int) : Event → Option (Nat × Option Int)
  | .recv _ _ ret => some (s.1, some ret)
  | .pfb_write_to_flash_aligned_256_bytes offset len _ =>
    if offset = s.1 ∧ s.2 = some (len : Int) then some (offset + len, none) else none
  | _ => some s

/-- Log lines of `connect_to_server` and of the retry loop around it. -/
def Msg.ofConnect : Msg → Bool
  | .getaddrinfo_failed | .socket_failed | .connect_failed | .server_unreachable
  | .server_connecting _ | .server_retrying => true
  | _ => false

/-- Events recorded by `connect_to_server` and by the retry loop around it. -/
def Event.ofConnect : Event → Bool
  | .call_connect_to_server | .ret_connect_to_server _ | .getaddrinfo _
  | .freeaddrinfo _ | .socket _ | .connect _ _ _ | .close _ | .inet_ntop _
  | .vTaskDelay _ => true
  | .LOG .download _ msg => msg.ofConnect
  | _ => false

/-- Log lines of the transfer loop. -/
def Msg.ofTransfer : Msg → Bool
  | .recv_failed | .connection_closed | .write_failed | .send_failed | .downloaded _ => true
  | _ => false

/-- Events recorded by the transfer loop. -/
def Event.ofTransfer : Event → Bool
  | .recv _ _ _ | .pfb_write_to_flash_aligned_256_bytes _ _ _ | .send _ _ _ _ => true
  | .LOG .download _ msg => msg.ofTransfer
  | _ => false

/-- What one pass through the whole loop body records: the chunk was received,
written at `flash_offset` and acknowledged, and `counter` was the number of
chunks before it. -/
def passTrace (sockfd : Int) (flash_offset counter : Nat) (c : Chunk) : List Event :=
  [.recv sockfd MAX_RECV_DATA_SIZE c.recv,
   .pfb_write_to_flash_aligned_256_bytes flash_offset c.recv.toNat c.write,
   .send sockfd READY_FOR_NEXT_CHUNK_MESSAGE (strlen READY_FOR_NEXT_CHUNK_MESSAGE) c.send] ++
  (if (counter + 1) % 10 = 0 then
    [.LOG .download .INF (.downloaded (flash_offset + c.recv.toNat))]
   else [])

/-- Socket handle discipline.  The state is the list of handles that are open:
`socket` opens the handle it returns (unless it returns -1), and `close` must
be given a handle that is open, which it removes; a `close` of the value -1,
of a handle that was closed already or of an unassigned variable is a
violation. -/
def handleStep (opened : List Int) : Event → Option (List Int)
  | .socket ret => if ret = -1 then some opened else some (ret :: opened)
  | .close (some sockfd) => if sockfd ∈ opened then some (opened.erase sockfd) else none
  | .close none => none
  | _ => some opened

/-- C6 as stated.  The state tells whether the download slot was initialised
since the last call of `connect_to_server`: every call of `connect_to_server`
must find it so. -/
def freshSlotStep (fresh : Bool) : Event → Option Bool
  | .pfb_initialize_download_slot => some true
  | .call_connect_to_server => if fresh then some false else none
  | _ => some fresh

/-- Where a run stands with respect to the download slot. -/
inductive SlotState
  /-- no call of `download_file` is in progress -/
  | idle
  /-- `download_file` was entered and has done nothing yet -/
  | entered
  /-- the slot was initialised by the current call, no connection yet -/
  | initialised
  /-- `connect_to_server` returned a socket to the current call -/
  | connected
  deriving DecidableEq

/-- Slot initialisation per call of `download_file`: the first thing a call
does is to initialise the slot, and it does so nowhere else; `connect_to_server`
is called only between that initialisation and the connection (any number of
times); the flash is written only once connected. -/
def slotStep : SlotState → Event → Option SlotState
  | .entered, .pfb_initialize_download_slot => some .initialised
  | .entered, _ => none
  | _, .pfb_initialize_download_slot => none
  | .idle, .call_download_file => some .entered
  | .connected, .call_download_file => some .entered
  | _, .call_download_file => none
  | .initialised, .call_connect_to_server => some .initialised
  | _, .call_connect_to_server => none
  | .initialised, .ret_connect_to_server ret =>
    if ret = -1 then some .initialised else some .connected
  | _, .ret_connect_to_server _ => none
  | .connected, .pfb_write_to_flash_aligned_256_bytes _ _ _ => some .connected
  | _, .pfb_write_to_flash_aligned_256_bytes _ _ _ => none
  | s, _ => some s

/-- A trace has as many slot initialisations as calls of `download_file`. -/
def slotBalanced (t : List Event) : Prop :=
  t.count .pfb_initialize_download_slot = t.count .call_download_file

/-- Log lines of `wifi_init`. -/
def Msg.ofWifi : Msg → Bool
  | .cyw43_failed | .wifi_connecting | .wifi_retrying _ | .wifi_connected => true
  | _ => false

/-- Where a run of `download_task` stands with respect to the update. -/
inductive UpdateState
  /-- before `pfb_firmware_commit` -/
  | boot
  /-- the running firmware was committed, no session yet -/
  | committed
  /-- inside a call of `download_file`; `written` tells whether a flash write
  of at least one byte succeeded in it -/
  | session (written : Bool)
  /-- the last call of `download_file` returned non-zero -/
  | failed
  /-- the last call of `download_file` returned 0 -/
  | succeeded
  /-- `pfb_mark_download_slot_as_valid` was called -/
  | marked
  /-- `pfb_perform_update` was called -/
  | updated
  deriving DecidableEq

/-- Order of commit, sessions and finalisation.  The commit comes first;
`download_file` is called after the commit or after a failed call; it returns
0 only if a write of at least one byte succeeded in it;
`pfb_mark_download_slot_as_valid` is called only right after a call that
returned 0 and `pfb_perform_update` only after it, each once. -/
def updateStep : UpdateState → Event → Option UpdateState
  | .boot, .pfb_firmware_commit => some .committed
  | _, .pfb_firmware_commit => none
  | .committed, .call_download_file => some (.session false)
  | .failed, .call_download_file => some (.session false)
  | _, .call_download_file => none
  | .session written, .pfb_write_to_flash_aligned_256_bytes _ len ret =>
    some (.session (written || decide (ret = 0 ∧ 0 < len)))
  | _, .pfb_write_to_flash_aligned_256_bytes _ _ _ => none
  | .session written, .ret_download_file ret =>
    if ret = 0 then (if written then some .succeeded else none) else some .failed
  | _, .ret_download_file _ => none
  | .succeeded, .pfb_mark_download_slot_as_valid => some .marked
  | _, .pfb_mark_download_slot_as_valid => none
  | .marked, .pfb_perform_update => some .updated
  | _, .pfb_perform_update => none
  | s, _ => some s


/-- Log lines of `connect_to_server`. -/
def Msg.ofSockets : Msg → Bool
  | .getaddrinfo_failed | .socket_failed | .connect_failed | .server_unreachable
  | .server_connecting _ => true
  | _ => false

/-- Events recorded inside `connect_to_server`, between its entry and its
return. -/
def Event.ofSockets : Event → Bool
  | .getaddrinfo _ | .freeaddrinfo _ | .socket _ | .connect _ _ _ | .close _
  | .inet_ntop _ => true
  | .LOG .download _ msg => msg.ofSockets
  | _ => false

/-- Events recorded by `wifi_init`. -/
def Event.ofWifi : Event → Bool
  | .cyw43_arch_init _ | .exit _ | .cyw43_arch_enable_sta_mode
  | .cyw43_arch_wifi_connect_timeout_ms _ _ | .sleep_ms _ => true
  | .LOG .wifi _ msg => msg.ofWifi
  | _ => false


/-- Log lines of `download_task` before its session loop. -/
def Msg.ofBoot : Msg → Bool
  | .download_task_started | .new_firmware | .rollback_performed => true
  | _ => false

/-- Events recorded by `download_task` before its session loop, the commit
apart. -/
def Event.ofBoot : Event → Bool
  | .pfb_is_after_firmware_update _ | .pfb_is_after_rollback _ => true
  | .LOG .download _ msg => msg.ofBoot
  | e => e.ofWifi


/-- A server that is reached at the first attempt and closes the connection
without sending anything. -/
def worldEmpty : World :=
  { cyw43_arch_init := 0, wifi_connect := [0],
    is_after_firmware_update := false, is_after_rollback := false,
    getaddrinfo := [⟨0, [⟨1, 3, 0⟩]⟩],
    chunks := [⟨0, 0, 0⟩] }

/-- A server that is reached at the first attempt, sends one chunk of 256 bytes
and closes. -/
def world256 : World :=
  { cyw43_arch_init := 0, wifi_connect := [0],
    is_after_firmware_update := false, is_after_rollback := false,
    getaddrinfo := [⟨0, [⟨1, 3, 0⟩]⟩],
    chunks := [⟨256, 0, 5⟩, ⟨0, 0, 0⟩] }

/-- A server that is reached at the first attempt, delivers 100 bytes and
closes. -/
def world100 : World :=
  { cyw43_arch_init := 0, wifi_connect := [0],
    is_after_firmware_update := false, is_after_rollback := false,
    getaddrinfo := [⟨0, [⟨1, 3, 0⟩]⟩],
    chunks := [⟨100, 0, 5⟩, ⟨0, 0, 0⟩] }

/-- A server that is not reached at the first attempt (`getaddrinfo` fails),
is reached at the second, sends one chunk of 256 bytes and closes. -/
def worldRetry : World :=
  { cyw43_arch_init := 0, wifi_connect := [0],
    is_after_firmware_update := false, is_after_rollback := false,
    getaddrinfo := [⟨1, []⟩, ⟨0, [⟨1, 3, 0⟩]⟩],
    chunks := [⟨256, 0, 5⟩, ⟨0, 0, 0⟩] }

/-- A first session that is connected at once and fails at `recv`, then a
second session whose first connection attempt fails (`getaddrinfo`), whose
second succeeds, and which receives 256 bytes before the peer closes. -/
def worldTwoSessions : World :=
  { cyw43_arch_init := 0, wifi_connect := [0],
    is_after_firmware_update := false, is_after_rollback := false,
    getaddrinfo := [⟨0, [⟨1, 3, 0⟩]⟩, ⟨1, []⟩, ⟨0, [⟨1, 4, 0⟩]⟩],
    chunks := [⟨-1, 0, 0⟩, ⟨256, 0, 5⟩, ⟨0, 0, 0⟩] }

/-! # Theorems -/

/-! ## Generic facts about monitors and alphabets -/

theorem runMonitor_append {σ : Type} (step : σ → Event → Option σ) (s : σ)
    (t₁ t₂ : List Event) :
    runMonitor step s (t₁ ++ t₂) =
      (runMonitor step s t₁).bind (fun s' => runMonitor step s' t₂) := by
  induction t₁ generalizing s with
  | nil => simp [runMonitor]
  | cons e t ih =>
    simp only [List.cons_append, runMonitor]
    cases step s e with
    | none => simp
    | some s' => simpa using ih s'

theorem runMonitor_skip {σ : Type} (step : σ → Event → Option σ) (s : σ)
    (t : List Event) (h : ∀ e ∈ t, step s e = some s) : runMonitor step s t = some s := by
  induction t with
  | nil => simp [runMonitor]
  | cons e t ih =>
    have he := h e (by simp)
    simp only [runMonitor, he]
    exact ih (fun x hx => h x (by simp [hx]))

theorem filterMap_eq_nil_of {α : Type} (f : Event → Option α) (t : List Event)
    (h : ∀ e ∈ t, f e = none) : t.filterMap f = [] := by
  induction t with
  | nil => rfl
  | cons e t ih =>
    simp [List.filterMap_cons, h e (by simp), ih (fun x hx => h x (by simp [hx]))]

/-! ## The connection phase -/

theorem connect_to_server_for_ofConnect (l : List AddrInfo) (s : Option Int) :
    ∀ e ∈ (connect_to_server_for l s).2, e.ofConnect = true := by
  induction l generalizing s with
  | nil => simp [connect_to_server_for]
  | cons p l ih =>
    intro e he
    simp only [connect_to_server_for] at he
    split_ifs at he
    · simp only [List.mem_cons] at he
      rcases he with rfl | rfl | he
      · rfl
      · rfl
      · exact ih _ e he
    · simp only [List.mem_cons] at he
      rcases he with rfl | rfl | rfl | rfl | he
      · rfl
      · rfl
      · rfl
      · rfl
      · exact ih _ e he
    · simp only [List.mem_cons, List.mem_singleton] at he
      rcases he with rfl | rfl | he
      · rfl
      · rfl
      · simp at he

theorem connect_to_server_ofConnect (g : GetAddrInfo) :
    ∀ e ∈ (connect_to_server g).2, e.ofConnect = true := by
  intro e he
  unfold connect_to_server at he
  split_ifs at he
  · simp only [List.mem_cons] at he
    rcases he with rfl | rfl | rfl | rfl | rfl | he
    all_goals first | rfl | simp at he
  · have hfor := connect_to_server_for_ofConnect g.servinfo none
    split at he
    all_goals
      rename_i heq
      rw [heq] at hfor
      simp only [List.mem_append, List.mem_cons] at he
      rcases he with (((rfl | rfl | he) | he) | (rfl | rfl | rfl | rfl | he))
      all_goals first | rfl | exact hfor e he | simp at he

theorem download_file_connect_ofConnect (tick : Nat) (q : List GetAddrInfo) :
    ∀ e ∈ (download_file_connect tick q).2.2, e.ofConnect = true := by
  induction q with
  | nil => simp [download_file_connect, Event.ofConnect]
  | cons g q ih =>
    intro e he
    simp only [download_file_connect] at he
    split_ifs at he
    · simp only [List.mem_append, List.mem_cons] at he
      rcases he with ((he | (rfl | rfl | he)) | he)
      · exact connect_to_server_ofConnect g e he
      · rfl
      · rfl
      · simp at he
      · exact ih e he
    · exact connect_to_server_ofConnect g e he

/-! ## The transfer loop -/

theorem download_file_loop_recv_error (sockfd : Int) (c : Chunk) (rest : List Chunk)
    (fo counter : Nat) (ret : Int) (out : Option Nat) (h : c.recv = -1) :
    download_file_loop sockfd (c :: rest) fo counter ret out =
      { exited := true, ret := ret, out_binary_size := out, flash_offset := fo,
        counter := counter, chunks := rest,
        trace := [.recv sockfd MAX_RECV_DATA_SIZE c.recv,
                  .LOG .download .ERR .recv_failed] } := by
  simp [download_file_loop, h]

theorem download_file_loop_closed (sockfd : Int) (c : Chunk) (rest : List Chunk)
    (fo counter : Nat) (ret : Int) (out : Option Nat) (h : c.recv = 0) :
    download_file_loop sockfd (c :: rest) fo counter ret out =
      { exited := true, ret := if fo = 0 then 1 else 0, out_binary_size := some fo,
        flash_offset := fo, counter := counter, chunks := rest,
        trace := [.recv sockfd MAX_RECV_DATA_SIZE c.recv,
                  .LOG .download .INF .connection_closed] } := by
  simp [download_file_loop, h]

theorem download_file_loop_write_failed (sockfd : Int) (c : Chunk) (rest : List Chunk)
    (fo counter : Nat) (ret : Int) (out : Option Nat)
    (h1 : c.recv ≠ -1) (h2 : c.recv ≠ 0) (h3 : c.write ≠ 0) :
    download_file_loop sockfd (c :: rest) fo counter ret out =
      { exited := true, ret := ret, out_binary_size := out, flash_offset := fo,
        counter := counter, chunks := rest,
        trace := [.recv sockfd MAX_RECV_DATA_SIZE c.recv,
                  .pfb_write_to_flash_aligned_256_bytes fo c.recv.toNat c.write,
                  .LOG .download .ERR .write_failed] } := by
  simp [download_file_loop, h1, h2, h3]

theorem download_file_loop_send_failed (sockfd : Int) (c : Chunk) (rest : List Chunk)
    (fo counter : Nat) (ret : Int) (out : Option Nat)
    (h1 : c.recv ≠ -1) (h2 : c.recv ≠ 0) (h3 : c.write = 0) (h4 : c.send = -1) :
    download_file_loop sockfd (c :: rest) fo counter ret out =
      { exited := true, ret := ret, out_binary_size := out,
        flash_offset := fo + c.recv.toNat, counter := counter, chunks := rest,
        trace := [.recv sockfd MAX_RECV_DATA_SIZE c.recv,
                  .pfb_write_to_flash_aligned_256_bytes fo c.recv.toNat c.write,
                  .send sockfd READY_FOR_NEXT_CHUNK_MESSAGE
                    (strlen READY_FOR_NEXT_CHUNK_MESSAGE) c.send,
                  .LOG .download .ERR .send_failed] } := by
  simp [download_file_loop, h1, h2, h3, h4]

theorem download_file_loop_pass (sockfd : Int) (c : Chunk) (rest : List Chunk)
    (fo counter : Nat) (ret : Int) (out : Option Nat) (h : c.transferred) :
    download_file_loop sockfd (c :: rest) fo counter ret out =
      { download_file_loop sockfd rest (fo + c.recv.toNat) (counter + 1) ret out with
        trace := passTrace sockfd fo counter c ++
          (download_file_loop sockfd rest (fo + c.recv.toNat) (counter + 1) ret out).trace } := by
  obtain ⟨h1, h2, h3, h4⟩ := h
  simp [download_file_loop, h1, h2, h3, h4, passTrace]

/-- The five ways through the loop body. -/
theorem Chunk.five_ways (c : Chunk) :
    c.recv = -1 ∨ c.recv = 0 ∨ (c.recv ≠ -1 ∧ c.recv ≠ 0 ∧ c.write ≠ 0) ∨
    (c.recv ≠ -1 ∧ c.recv ≠ 0 ∧ c.write = 0 ∧ c.send = -1) ∨ c.transferred := by
  unfold Chunk.transferred
  by_cases h1 : c.recv = -1
  · exact Or.inl h1
  by_cases h2 : c.recv = 0
  · exact Or.inr (Or.inl h2)
  by_cases h3 : c.write = 0
  · by_cases h4 : c.send = -1
    · exact Or.inr (Or.inr (Or.inr (Or.inl ⟨h1, h2, h3, h4⟩)))
    · exact Or.inr (Or.inr (Or.inr (Or.inr ⟨h1, h2, h3, h4⟩)))
  · exact Or.inr (Or.inr (Or.inl ⟨h1, h2, h3⟩))

theorem passTrace_ofTransfer (sockfd : Int) (fo counter : Nat) (c : Chunk) :
    ∀ e ∈ passTrace sockfd fo counter c, e.ofTransfer = true := by
  intro e he
  unfold passTrace at he
  split_ifs at he
  · simp only [List.mem_append, List.mem_cons, List.mem_singleton, List.not_mem_nil,
      or_false] at he
    rcases he with (rfl | rfl | rfl) | rfl <;> rfl
  · simp only [List.append_nil, List.mem_cons, List.not_mem_nil, or_false] at he
    rcases he with rfl | rfl | rfl <;> rfl

theorem download_file_loop_ofTransfer (sockfd : Int) (chunks : List Chunk)
    (fo counter : Nat) (ret : Int) (out : Option Nat) :
    ∀ e ∈ (download_file_loop sockfd chunks fo counter ret out).trace,
      e.ofTransfer = true := by
  induction chunks generalizing fo counter with
  | nil => simp [download_file_loop]
  | cons c rest ih =>
    intro e he
    rcases c.five_ways with h | h | ⟨h1, h2, h3⟩ | ⟨h1, h2, h3, h4⟩ | h
    · rw [download_file_loop_recv_error _ _ _ _ _ _ _ h] at he
      simp only [List.mem_cons, List.not_mem_nil, or_false] at he
      rcases he with rfl | rfl <;> rfl
    · rw [download_file_loop_closed _ _ _ _ _ _ _ h] at he
      simp only [List.mem_cons, List.not_mem_nil, or_false] at he
      rcases he with rfl | rfl <;> rfl
    · rw [download_file_loop_write_failed _ _ _ _ _ _ _ h1 h2 h3] at he
      simp only [List.mem_cons, List.not_mem_nil, or_false] at he
      rcases he with rfl | rfl | rfl <;> rfl
    · rw [download_file_loop_send_failed _ _ _ _ _ _ _ h1 h2 h3 h4] at he
      simp only [List.mem_cons, List.not_mem_nil, or_false] at he
      rcases he with rfl | rfl | rfl | rfl <;> rfl
    · rw [download_file_loop_pass _ _ _ _ _ _ _ h] at he
      rcases List.mem_append.mp he with hp | hr
      · exact passTrace_ofTransfer sockfd fo counter c e hp
      · exact ih _ _ e hr

theorem writtenLengths_passTrace (sockfd : Int) (fo counter : Nat) (c : Chunk)
    (h : c.transferred) :
    writtenLengths (passTrace sockfd fo counter c) = [c.recv.toNat] := by
  unfold passTrace writtenLengths
  split_ifs <;> simp [Event.written, h.2.2.1]

theorem download_file_loop_flash_offset (sockfd : Int) (chunks : List Chunk)
    (fo counter : Nat) (ret : Int) (out : Option Nat) :
    (download_file_loop sockfd chunks fo counter ret out).flash_offset =
      fo + (writtenLengths (download_file_loop sockfd chunks fo counter ret out).trace).sum := by
  induction chunks generalizing fo counter with
  | nil => simp [download_file_loop, writtenLengths]
  | cons c rest ih =>
    rcases c.five_ways with h | h | ⟨h1, h2, h3⟩ | ⟨h1, h2, h3, h4⟩ | h
    · rw [download_file_loop_recv_error _ _ _ _ _ _ _ h]
      simp [writtenLengths, Event.written]
    · rw [download_file_loop_closed _ _ _ _ _ _ _ h]
      simp [writtenLengths, Event.written]
    · rw [download_file_loop_write_failed _ _ _ _ _ _ _ h1 h2 h3]
      simp [writtenLengths, Event.written, h3]
    · rw [download_file_loop_send_failed _ _ _ _ _ _ _ h1 h2 h3 h4]
      simp [writtenLengths, Event.written, h3]
    · rw [download_file_loop_pass _ _ _ _ _ _ _ h]
      have hw := writtenLengths_passTrace sockfd fo counter c h
      unfold writtenLengths at hw ⊢
      simp only [List.filterMap_append, hw, List.sum_append, List.sum_cons, List.sum_nil]
      have := ih (fo + c.recv.toNat) (counter + 1)
      unfold writtenLengths at this
      rw [this]
      omega

theorem download_file_loop_acks (sockfd : Int) (chunks : List Chunk)
    (fo counter : Nat) (ret : Int) (out : Option Nat) :
    runMonitor ackStep false (download_file_loop sockfd chunks fo counter ret out).trace
        = some false ∧
    (download_file_loop sockfd chunks fo counter ret out).trace.countP Event.isAck =
      (writtenLengths (download_file_loop sockfd chunks fo counter ret out).trace).length := by
  induction chunks generalizing fo counter with
  | nil => simp [download_file_loop, writtenLengths, runMonitor]
  | cons c rest ih =>
    simp only [download_file_loop]
    split_ifs <;>
      simp_all [writtenLengths, List.filterMap_cons, List.filterMap_append, Event.written,
        runMonitor, ackStep, Event.isAck, List.countP_cons, List.countP_append,
        READY_FOR_NEXT_CHUNK_MESSAGE, strlen, runMonitor_append]

/-! ## Offset and acknowledgements (C1) -/

theorem ofConnect_written (e : Event) (h : e.ofConnect = true) : e.written = none := by
  cases e <;> simp_all [Event.ofConnect, Event.written]

theorem ofConnect_isAck (e : Event) (h : e.ofConnect = true) : e.isAck = false := by
  cases e <;> simp_all [Event.ofConnect, Event.isAck]

theorem ofConnect_ackStep (s : Bool) (e : Event) (h : e.ofConnect = true) :
    ackStep s e = some s := by
  cases e <;> simp_all [Event.ofConnect, ackStep]

theorem countP_eq_zero_of (p : Event → Bool) (t : List Event)
    (h : ∀ e ∈ t, p e = false) : t.countP p = 0 := by
  rw [List.countP_eq_zero]
  intro e he
  simp [h e he]

/-! ## `download_file` case by case -/

theorem download_file_no_connection (tick : Nat) (w : World) (out : Option Nat)
    (h : (download_file_connect tick w.getaddrinfo).1 = none) :
    download_file tick w out =
      { ret := none, out_binary_size := out, flash_offset := 0,
        world := { w with getaddrinfo := (download_file_connect tick w.getaddrinfo).2.1 },
        trace := [.call_download_file, .pfb_initialize_download_slot] ++
          (download_file_connect tick w.getaddrinfo).2.2 } := by
  simp [download_file, h]

theorem download_file_exited (tick : Nat) (w : World) (out : Option Nat) (sockfd : Int)
    (h : (download_file_connect tick w.getaddrinfo).1 = some sockfd)
    (hx : (download_file_loop sockfd w.chunks 0 0 1 out).exited = true) :
    download_file tick w out =
      { ret := some (download_file_loop sockfd w.chunks 0 0 1 out).ret,
        out_binary_size := (download_file_loop sockfd w.chunks 0 0 1 out).out_binary_size,
        flash_offset := (download_file_loop sockfd w.chunks 0 0 1 out).flash_offset,
        world := { w with getaddrinfo := (download_file_connect tick w.getaddrinfo).2.1,
                          chunks := (download_file_loop sockfd w.chunks 0 0 1 out).chunks },
        trace := [.call_download_file, .pfb_initialize_download_slot] ++
          (download_file_connect tick w.getaddrinfo).2.2 ++
          (download_file_loop sockfd w.chunks 0 0 1 out).trace ++
          [.close (some sockfd),
           .ret_download_file (download_file_loop sockfd w.chunks 0 0 1 out).ret] } := by
  simp [download_file, h, hx]

theorem download_file_no_exit (tick : Nat) (w : World) (out : Option Nat) (sockfd : Int)
    (h : (download_file_connect tick w.getaddrinfo).1 = some sockfd)
    (hx : (download_file_loop sockfd w.chunks 0 0 1 out).exited = false) :
    download_file tick w out =
      { ret := none,
        out_binary_size := (download_file_loop sockfd w.chunks 0 0 1 out).out_binary_size,
        flash_offset := (download_file_loop sockfd w.chunks 0 0 1 out).flash_offset,
        world := { w with getaddrinfo := (download_file_connect tick w.getaddrinfo).2.1,
                          chunks := (download_file_loop sockfd w.chunks 0 0 1 out).chunks },
        trace := [.call_download_file, .pfb_initialize_download_slot] ++
          (download_file_connect tick w.getaddrinfo).2.2 ++
          (download_file_loop sockfd w.chunks 0 0 1 out).trace } := by
  simp [download_file, h, hx]

/-- C1: in every run of `download_file`, whatever the connection phase and the
results of recv / write / send, `flash_offset` at the end equals the sum of the
lengths of the successful flash writes, there are exactly as many "Ready"
sends as successful writes, and they alternate: each acknowledgement comes
after its own write and before the next write. -/
theorem download_file_offset_and_acks (tick : Nat) (w : World) (out : Option Nat) :
    (download_file tick w out).flash_offset =
      (writtenLengths (download_file tick w out).trace).sum ∧
    (download_file tick w out).trace.countP Event.isAck =
      (writtenLengths (download_file tick w out).trace).length ∧
    runMonitor ackStep false (download_file tick w out).trace = some false := by
  have hc := download_file_connect_ofConnect tick w.getaddrinfo
  have hw : writtenLengths (download_file_connect tick w.getaddrinfo).2.2 = [] :=
    filterMap_eq_nil_of _ _ (fun e he => ofConnect_written e (hc e he))
  have ha : (download_file_connect tick w.getaddrinfo).2.2.countP Event.isAck = 0 :=
    countP_eq_zero_of _ _ (fun e he => ofConnect_isAck e (hc e he))
  have hm : runMonitor ackStep false (download_file_connect tick w.getaddrinfo).2.2
      = some false :=
    runMonitor_skip _ _ _ (fun e he => ofConnect_ackStep _ e (hc e he))
  unfold writtenLengths at hw
  cases h : (download_file_connect tick w.getaddrinfo).1 with
  | none =>
    rw [download_file_no_connection tick w out h]
    simp [writtenLengths, List.filterMap_append, hw, ha, hm, runMonitor_append, runMonitor,
      ackStep, Event.written, Event.isAck, List.countP_cons, List.countP_append]
  | some sockfd =>
    have h1 := download_file_loop_flash_offset sockfd w.chunks 0 0 1 out
    have h2 := download_file_loop_acks sockfd w.chunks 0 0 1 out
    unfold writtenLengths at h1 h2
    cases hx : (download_file_loop sockfd w.chunks 0 0 1 out).exited with
    | true =>
      rw [download_file_exited tick w out sockfd h hx]
      simp [writtenLengths, List.filterMap_append, hw, ha, hm, runMonitor_append, runMonitor,
        ackStep, Event.written, Event.isAck, List.countP_cons, List.countP_append, h1, h2]
    | false =>
      rw [download_file_no_exit tick w out sockfd h hx]
      simp [writtenLengths, List.filterMap_append, hw, ha, hm, runMonitor_append, runMonitor,
        ackStep, Event.written, Event.isAck, List.countP_cons, List.countP_append, h1, h2]

theorem download_file_offset_and_acks_witness :
    writtenLengths (download_file 1 world256 none).trace = [256] ∧
    (download_file 1 world256 none).flash_offset = 256 :=
  ⟨by decide, by rw [(download_file_offset_and_acks 1 world256 none).1]; decide⟩

/-! ## How `download_file` ends (C2, C5) -/

theorem download_file_loop_result (sockfd : Int) (chunks : List Chunk)
    (fo counter : Nat) (ret : Int) (out : Option Nat) :
    (download_file_loop sockfd chunks fo counter ret out).out_binary_size =
      (if cleanClose (download_file_loop sockfd chunks fo counter ret out).trace then
        some (download_file_loop sockfd chunks fo counter ret out).flash_offset else out) ∧
    (download_file_loop sockfd chunks fo counter ret out).ret =
      (if cleanClose (download_file_loop sockfd chunks fo counter ret out).trace then
        (if (download_file_loop sockfd chunks fo counter ret out).flash_offset = 0 then 1 else 0)
       else ret) ∧
    (cleanClose (download_file_loop sockfd chunks fo counter ret out).trace = true →
      (download_file_loop sockfd chunks fo counter ret out).exited = true) := by
  induction chunks generalizing fo counter with
  | nil => simp [download_file_loop, cleanClose]
  | cons c rest ih =>
    rcases c.five_ways with h | h | ⟨h1, h2, h3⟩ | ⟨h1, h2, h3, h4⟩ | h
    · rw [download_file_loop_recv_error _ _ _ _ _ _ _ h]
      simp [cleanClose, Event.isPeerClose, h]
    · rw [download_file_loop_closed _ _ _ _ _ _ _ h]
      simp [cleanClose, Event.isPeerClose, h]
    · rw [download_file_loop_write_failed _ _ _ _ _ _ _ h1 h2 h3]
      simp [cleanClose, Event.isPeerClose, h2]
    · rw [download_file_loop_send_failed _ _ _ _ _ _ _ h1 h2 h3 h4]
      simp [cleanClose, Event.isPeerClose, h2]
    · rw [download_file_loop_pass _ _ _ _ _ _ _ h]
      have hcc : ∀ t : List Event,
          cleanClose (passTrace sockfd fo counter c ++ t) = cleanClose t := by
        intro t
        unfold passTrace
        split_ifs <;> simp [cleanClose, Event.isPeerClose, h.2.1]
      simp only [hcc]
      exact ih _ _

theorem ofConnect_isPeerClose (e : Event) (h : e.ofConnect = true) :
    e.isPeerClose = false := by
  cases e <;> simp_all [Event.ofConnect, Event.isPeerClose]

theorem cleanClose_connect (tick : Nat) (q : List GetAddrInfo) :
    cleanClose (download_file_connect tick q).2.2 = false := by
  unfold cleanClose
  rw [List.any_eq_false]
  intro e he
  simp [ofConnect_isPeerClose e (download_file_connect_ofConnect tick q e he)]

/-- How `download_file` ends, read off its trace: with a clean close (`recv`
returned 0) the byte count is stored and the return value tells whether it is
positive; without one nothing is stored and the call does not return 0. -/
theorem download_file_result (tick : Nat) (w : World) (out : Option Nat) :
    (download_file tick w out).out_binary_size =
      (if cleanClose (download_file tick w out).trace then
        some (download_file tick w out).flash_offset else out) ∧
    (cleanClose (download_file tick w out).trace = true →
      (download_file tick w out).ret =
        some (if (download_file tick w out).flash_offset = 0 then 1 else 0)) ∧
    (cleanClose (download_file tick w out).trace = false →
      (download_file tick w out).ret = none ∨ (download_file tick w out).ret = some 1) := by
  have hc := cleanClose_connect tick w.getaddrinfo
  unfold cleanClose at hc
  cases h : (download_file_connect tick w.getaddrinfo).1 with
  | none =>
    rw [download_file_no_connection tick w out h]
    simp [cleanClose, List.any_append, hc, Event.isPeerClose]
  | some sockfd =>
    have h1 := download_file_loop_result sockfd w.chunks 0 0 1 out
    unfold cleanClose at h1
    cases hx : (download_file_loop sockfd w.chunks 0 0 1 out).exited with
    | true =>
      rw [download_file_exited tick w out sockfd h hx]
      simp only [cleanClose, List.any_append, hc, Event.isPeerClose, List.any_cons,
        List.any_nil, Bool.or_false, Bool.false_or, List.cons_append, List.nil_append]
      refine ⟨h1.1, fun hcc => ?_, fun hcc => ?_⟩
      · rw [h1.2.1, if_pos hcc]
      · right
        rw [h1.2.1]
        simp [hcc]
    | false =>
      rw [download_file_no_exit tick w out sockfd h hx]
      simp only [cleanClose, List.any_append, hc, Event.isPeerClose, List.any_cons,
        List.any_nil, Bool.or_false, Bool.false_or, List.cons_append, List.nil_append]
      refine ⟨h1.1, fun hcc => ?_, fun _ => ?_⟩
      · have := h1.2.2 hcc
        simp [hx] at this
      · trivial

/-- C2: when `recv` returns 0 in `download_file`, the call returns 1 (failure)
if `flash_offset` is 0, and returns 0 (success) with `*out_binary_size` equal
to `flash_offset` if `flash_offset` is positive.  In particular, once
connected, a peer that sends 256 bytes (written and acknowledged) and then
closes gives success with byte count 256, and a peer that closes without
sending gives failure. -/
theorem download_file_clean_close (tick : Nat) (w : World) (out : Option Nat) :
    (cleanClose (download_file tick w out).trace = true →
      ((download_file tick w out).flash_offset = 0 →
        (download_file tick w out).ret = some 1) ∧
      (0 < (download_file tick w out).flash_offset →
        (download_file tick w out).ret = some 0 ∧
        (download_file tick w out).out_binary_size =
          some (download_file tick w out).flash_offset)) ∧
    (∀ (sockfd s x y : Int) (rest : List Chunk),
      (download_file_connect tick w.getaddrinfo).1 = some sockfd → s ≠ -1 →
      w.chunks = ⟨256, 0, s⟩ :: ⟨0, x, y⟩ :: rest →
      (download_file tick w out).ret = some 0 ∧
      (download_file tick w out).out_binary_size = some 256 ∧
      (download_file tick w out).flash_offset = 256) ∧
    (∀ (sockfd x y : Int) (rest : List Chunk),
      (download_file_connect tick w.getaddrinfo).1 = some sockfd →
      w.chunks = ⟨0, x, y⟩ :: rest →
      (download_file tick w out).ret = some 1 ∧
      (download_file tick w out).flash_offset = 0) := by
  refine ⟨fun hcc => ⟨fun h0 => ?_, fun hpos => ?_⟩, ?_, ?_⟩
  · rw [(download_file_result tick w out).2.1 hcc, if_pos h0]
  · have hne : (download_file tick w out).flash_offset ≠ 0 := by omega
    refine ⟨?_, ?_⟩
    · rw [(download_file_result tick w out).2.1 hcc, if_neg hne]
    · rw [(download_file_result tick w out).1, if_pos hcc]
  · intro sockfd s x y rest hconn hs hch
    simp [download_file, hconn, hch, download_file_loop, hs]
  · intro sockfd x y rest hconn hch
    simp [download_file, hconn, hch, download_file_loop]

theorem download_file_clean_close_witness :
    cleanClose (download_file 1 world256 none).trace = true ∧
    (download_file 1 world256 none).ret = some 0 ∧
    (download_file 1 world256 none).out_binary_size = some 256 :=
  ⟨by decide,
   ((download_file_clean_close 1 world256 none).1 (by decide)).2 (by decide)⟩

/-- C5 fails as stated: when the peer closes before sending anything,
`download_file` returns 1 (failure) and has overwritten `*out_binary_size`,
which held 77, with 0. -/
theorem download_file_failure_writes_size :
    (download_file 1 worldEmpty (some 77)).ret = some 1 ∧
    (download_file 1 worldEmpty (some 77)).out_binary_size = some 0 ∧
    (download_file 1 worldEmpty (some 77)).out_binary_size ≠ some 77 := by
  decide

/-- C5, amended: `*out_binary_size` is written exactly when `recv` returns 0,
with `flash_offset`.  A run that returns success has stored its positive byte
count; a run that returns failure has either left `*out_binary_size` unchanged
(a recv, write or send error) or, when the peer closed before any byte was
written, set it to 0. -/
theorem download_file_out_binary_size (tick : Nat) (w : World) (out : Option Nat) :
    ((download_file tick w out).out_binary_size =
      if cleanClose (download_file tick w out).trace then
        some (download_file tick w out).flash_offset else out) ∧
    ((download_file tick w out).ret = some 0 →
      0 < (download_file tick w out).flash_offset ∧
      (download_file tick w out).out_binary_size =
        some (download_file tick w out).flash_offset) ∧
    (∀ r, (download_file tick w out).ret = some r → r ≠ 0 →
      (cleanClose (download_file tick w out).trace = false ∧
        (download_file tick w out).out_binary_size = out) ∨
      (cleanClose (download_file tick w out).trace = true ∧
        (download_file tick w out).flash_offset = 0 ∧
        (download_file tick w out).out_binary_size = some 0)) := by
  obtain ⟨h1, h2, h3⟩ := download_file_result tick w out
  refine ⟨h1, fun hret => ?_, fun r hret hr => ?_⟩
  · cases hcc : cleanClose (download_file tick w out).trace with
    | false =>
      rcases h3 hcc with h | h <;> simp [hret] at h
    | true =>
      have h := h2 hcc
      rw [hret] at h
      have hne : (download_file tick w out).flash_offset ≠ 0 := by
        intro h0
        simp [h0] at h
      refine ⟨by omega, ?_⟩
      rw [h1, if_pos hcc]
  · cases hcc : cleanClose (download_file tick w out).trace with
    | false =>
      left
      refine ⟨rfl, ?_⟩
      rw [h1]
      simp [hcc]
    | true =>
      right
      have h := h2 hcc
      rw [hret] at h
      have h0 : (download_file tick w out).flash_offset = 0 := by
        by_contra hne
        simp [hne] at h
        exact hr h
      refine ⟨rfl, h0, ?_⟩
      rw [h1, if_pos hcc, h0]

theorem download_file_out_binary_size_witness :
    (download_file 1 world256 (some 77)).ret = some 0 ∧
    0 < (download_file 1 world256 (some 77)).flash_offset ∧
    (download_file 1 world256 (some 77)).out_binary_size = some 256 :=
  ⟨by decide, ((download_file_out_binary_size 1 world256 (some 77)).2.1 (by decide)).1,
   by decide⟩

/-! ## Abort and close (C3) -/

theorem ops_passTrace (sockfd : Int) (fo counter : Nat) (c : Chunk) :
    ops (passTrace sockfd fo counter c) = [.recv, .write, .send] := by
  unfold passTrace ops
  split_ifs <;> simp [Event.op]

theorem download_file_loop_abort (sockfd : Int) (pre : List Chunk) (c : Chunk)
    (post : List Chunk) (fo counter : Nat) (ret : Int) (out : Option Nat)
    (hpre : ∀ g ∈ pre, g.transferred) (hc : c.fails) :
    (download_file_loop sockfd (pre ++ c :: post) fo counter ret out).exited = true ∧
    (download_file_loop sockfd (pre ++ c :: post) fo counter ret out).ret = ret ∧
    (download_file_loop sockfd (pre ++ c :: post) fo counter ret out).chunks = post ∧
    ops (download_file_loop sockfd (pre ++ c :: post) fo counter ret out).trace =
      (List.replicate pre.length [Op.recv, Op.write, Op.send]).flatten ++ c.failedOps := by
  induction pre generalizing fo counter with
  | nil =>
    rcases c.five_ways with h | h | ⟨h1, h2, h3⟩ | ⟨h1, h2, h3, h4⟩ | h
    · rw [List.nil_append, download_file_loop_recv_error _ _ _ _ _ _ _ h]
      simp [ops, Event.op, Chunk.failedOps, h]
    · exfalso
      unfold Chunk.fails at hc
      rw [h] at hc
      simp at hc
    · rw [List.nil_append, download_file_loop_write_failed _ _ _ _ _ _ _ h1 h2 h3]
      simp [ops, Event.op, Chunk.failedOps, h1, h3]
    · rw [List.nil_append, download_file_loop_send_failed _ _ _ _ _ _ _ h1 h2 h3 h4]
      simp [ops, Event.op, Chunk.failedOps, h1, h3]
    · exfalso
      obtain ⟨h1, h2, h3, h4⟩ := h
      unfold Chunk.fails at hc
      rcases hc with hc | ⟨_, hc | hc⟩
      · exact h1 hc
      · exact hc h3
      · exact h4 hc
  | cons g pre ih =>
    have hg : g.transferred := hpre g (by simp)
    have ih' := ih (fo + g.recv.toNat) (counter + 1) (fun x hx => hpre x (by simp [hx]))
    rw [List.cons_append, download_file_loop_pass _ _ _ _ _ _ _ hg]
    obtain ⟨i1, i2, i3, i4⟩ := ih'
    refine ⟨i1, i2, i3, ?_⟩
    show ops (passTrace sockfd fo counter g ++ _) = _
    unfold ops at i4 ⊢
    rw [List.filterMap_append, i4]
    have := ops_passTrace sockfd fo counter g
    unfold ops at this
    rw [this]
    simp [List.replicate_succ]

theorem ofTransfer_isClose (e : Event) (h : e.ofTransfer = true) : e.isClose = false := by
  cases e <;> simp_all [Event.ofTransfer, Event.isClose]

theorem download_file_loop_no_close (sockfd : Int) (chunks : List Chunk)
    (fo counter : Nat) (ret : Int) (out : Option Nat) :
    (download_file_loop sockfd chunks fo counter ret out).trace.filter Event.isClose = [] := by
  rw [List.filter_eq_nil_iff]
  intro e he
  simp [ofTransfer_isClose e (download_file_loop_ofTransfer sockfd chunks fo counter ret out e he)]

/-- C3: once connected on `sockfd`, the rest of the trace of `download_file`
(`body`) has exactly one `close`, of `sockfd`, whenever the call returns; and
if chunks `pre` pass through the loop and `recv`, the flash write or the
acknowledgement `send` fails on the next chunk `c`, the call returns 1, no
later chunk is consumed and the operations performed are those of the chunks
of `pre`, the ones up to the failing call of `c`, and the `close`: nothing for
the chunk after `c`. -/
theorem download_file_abort_and_close (tick : Nat) (w : World) (out : Option Nat)
    (sockfd : Int) (hconn : (download_file_connect tick w.getaddrinfo).1 = some sockfd) :
    ∃ body : List Event,
      (download_file tick w out).trace =
        [.call_download_file, .pfb_initialize_download_slot] ++
        (download_file_connect tick w.getaddrinfo).2.2 ++ body ∧
      ((download_file tick w out).ret ≠ none →
        body.filter Event.isClose = [.close (some sockfd)]) ∧
      (∀ (pre : List Chunk) (c : Chunk) (post : List Chunk),
        w.chunks = pre ++ c :: post → (∀ g ∈ pre, g.transferred) → c.fails →
        (download_file tick w out).ret = some 1 ∧
        (download_file tick w out).world.chunks = post ∧
        ops body = (List.replicate pre.length [Op.recv, Op.write, Op.send]).flatten ++
          c.failedOps ++ [Op.close]) := by
  cases hx : (download_file_loop sockfd w.chunks 0 0 1 out).exited with
  | true =>
    refine ⟨(download_file_loop sockfd w.chunks 0 0 1 out).trace ++
      [.close (some sockfd),
       .ret_download_file (download_file_loop sockfd w.chunks 0 0 1 out).ret], ?_, ?_, ?_⟩
    · rw [download_file_exited tick w out sockfd hconn hx]
      simp
    · intro _
      rw [List.filter_append, download_file_loop_no_close]
      simp [Event.isClose]
    · intro pre c post hch hpre hc
      rw [download_file_exited tick w out sockfd hconn hx]
      obtain ⟨_, i2, i3, i4⟩ := download_file_loop_abort sockfd pre c post 0 0 1 out hpre hc
      rw [hch]
      refine ⟨by simp [i2], by simp [i3], ?_⟩
      unfold ops at i4 ⊢
      rw [List.filterMap_append, i4]
      simp [Event.op]
  | false =>
    refine ⟨(download_file_loop sockfd w.chunks 0 0 1 out).trace, ?_, ?_, ?_⟩
    · rw [download_file_no_exit tick w out sockfd hconn hx]
    · intro h
      rw [download_file_no_exit tick w out sockfd hconn hx] at h
      simp at h
    · intro pre c post hch hpre hc
      have := (download_file_loop_abort sockfd pre c post 0 0 1 out hpre hc).1
      rw [← hch, hx] at this
      simp at this

theorem download_file_abort_and_close_witness :
    (download_file_connect 1 [⟨0, [⟨1, 3, 0⟩]⟩]).1 = some 3 ∧
    (download_file 1 ⟨0, [0], false, false, [⟨0, [⟨1, 3, 0⟩]⟩],
      [⟨256, 0, 5⟩, ⟨256, 1, 5⟩, ⟨256, 0, 5⟩]⟩ none).ret = some 1 :=
  ⟨by decide, by
    obtain ⟨_, _, _, h⟩ := download_file_abort_and_close 1
      ⟨0, [0], false, false, [⟨0, [⟨1, 3, 0⟩]⟩], [⟨256, 0, 5⟩, ⟨256, 1, 5⟩, ⟨256, 0, 5⟩]⟩
      none 3 (by decide)
    exact (h [⟨256, 0, 5⟩] ⟨256, 1, 5⟩ [⟨256, 0, 5⟩] rfl (by decide) (by decide)).1⟩

/-! ## The arguments of the flash writes (C9) -/

theorem writeStep_passTrace (sockfd : Int) (fo counter : Nat) (c : Chunk)
    (h : 0 ≤ c.recv) :
    runMonitor writeStep (fo, none) (passTrace sockfd fo counter c) =
      some (fo + c.recv.toNat, none) := by
  have hn : ((c.recv.toNat : Nat) : Int) = c.recv := Int.toNat_of_nonneg h
  unfold passTrace
  split_ifs <;> simp [runMonitor, writeStep, hn]

theorem download_file_loop_writeStep (sockfd : Int) (chunks : List Chunk)
    (fo counter : Nat) (ret : Int) (out : Option Nat)
    (h : ∀ c ∈ chunks, -1 ≤ c.recv) :
    (runMonitor writeStep (fo, none)
      (download_file_loop sockfd chunks fo counter ret out).trace).isSome = true := by
  induction chunks generalizing fo counter with
  | nil => simp [download_file_loop, runMonitor]
  | cons c rest ih =>
    have hc : -1 ≤ c.recv := h c (by simp)
    rcases c.five_ways with h0 | h0 | ⟨h1, h2, h3⟩ | ⟨h1, h2, h3, h4⟩ | h0
    · rw [download_file_loop_recv_error _ _ _ _ _ _ _ h0]
      simp [runMonitor, writeStep]
    · rw [download_file_loop_closed _ _ _ _ _ _ _ h0]
      simp [runMonitor, writeStep]
    · rw [download_file_loop_write_failed _ _ _ _ _ _ _ h1 h2 h3]
      have hn : ((c.recv.toNat : Nat) : Int) = c.recv := Int.toNat_of_nonneg (by omega)
      simp [runMonitor, writeStep, hn]
    · rw [download_file_loop_send_failed _ _ _ _ _ _ _ h1 h2 h3 h4]
      have hn : ((c.recv.toNat : Nat) : Int) = c.recv := Int.toNat_of_nonneg (by omega)
      simp [runMonitor, writeStep, hn]
    · rw [download_file_loop_pass _ _ _ _ _ _ _ h0]
      have h1 := h0.1
      show (runMonitor writeStep (fo, none) (passTrace sockfd fo counter c ++ _)).isSome = true
      rw [runMonitor_append, writeStep_passTrace _ _ _ _ (by omega)]
      exact ih _ _ (fun x hx => h x (by simp [hx]))

theorem download_file_loop_write_args (sockfd : Int) (chunks : List Chunk)
    (fo counter : Nat) (ret : Int) (out : Option Nat) (P : Nat → Prop)
    (hP : ∀ c ∈ chunks, P c.recv.toNat) (Q : Nat → Prop) (hfo : Q fo)
    (hQ : ∀ c ∈ chunks, ∀ n, Q n → Q (n + c.recv.toNat)) :
    ∀ offset len r, Event.pfb_write_to_flash_aligned_256_bytes offset len r ∈
      (download_file_loop sockfd chunks fo counter ret out).trace → Q offset ∧ P len := by
  induction chunks generalizing fo counter with
  | nil => simp [download_file_loop]
  | cons c rest ih =>
    have hc : P c.recv.toNat := hP c (by simp)
    intro offset len r hmem
    rcases c.five_ways with h0 | h0 | ⟨h1, h2, h3⟩ | ⟨h1, h2, h3, h4⟩ | h0
    · rw [download_file_loop_recv_error _ _ _ _ _ _ _ h0] at hmem
      simp at hmem
    · rw [download_file_loop_closed _ _ _ _ _ _ _ h0] at hmem
      simp at hmem
    · rw [download_file_loop_write_failed _ _ _ _ _ _ _ h1 h2 h3] at hmem
      simp at hmem
      obtain ⟨rfl, rfl, _⟩ := hmem
      exact ⟨hfo, hc⟩
    · rw [download_file_loop_send_failed _ _ _ _ _ _ _ h1 h2 h3 h4] at hmem
      simp at hmem
      obtain ⟨rfl, rfl, _⟩ := hmem
      exact ⟨hfo, hc⟩
    · rw [download_file_loop_pass _ _ _ _ _ _ _ h0] at hmem
      have hmem' : Event.pfb_write_to_flash_aligned_256_bytes offset len r ∈
          passTrace sockfd fo counter c ++
            (download_file_loop sockfd rest (fo + c.recv.toNat) (counter + 1) ret out).trace :=
        hmem
      rw [List.mem_append] at hmem'
      rcases hmem' with hm | hm
      · unfold passTrace at hm
        have : offset = fo ∧ len = c.recv.toNat := by
          split_ifs at hm <;> simp at hm <;> exact ⟨hm.1, hm.2.1⟩
        obtain ⟨rfl, rfl⟩ := this
        exact ⟨hfo, hc⟩
      · exact ih (fo + c.recv.toNat) (counter + 1) (fun x hx => hP x (by simp [hx]))
          (hQ c (by simp) fo hfo) (fun x hx => hQ x (by simp [hx])) offset len r hm

theorem ofConnect_writeStep (s : Nat × Option Int) (e : Event) (h : e.ofConnect = true) :
    writeStep s e = some s := by
  cases e <;> simp_all [Event.ofConnect, writeStep]

theorem download_file_write_mem (tick : Nat) (w : World) (out : Option Nat)
    (offset len : Nat) (r : Int)
    (h : Event.pfb_write_to_flash_aligned_256_bytes offset len r ∈
      (download_file tick w out).trace) :
    ∃ sockfd, Event.pfb_write_to_flash_aligned_256_bytes offset len r ∈
      (download_file_loop sockfd w.chunks 0 0 1 out).trace := by
  have hc := download_file_connect_ofConnect tick w.getaddrinfo
  have hno : Event.pfb_write_to_flash_aligned_256_bytes offset len r ∉
      (download_file_connect tick w.getaddrinfo).2.2 := by
    intro hm
    have := hc _ hm
    simp [Event.ofConnect] at this
  cases hconn : (download_file_connect tick w.getaddrinfo).1 with
  | none =>
    rw [download_file_no_connection tick w out hconn] at h
    simp [hno] at h
  | some sockfd =>
    refine ⟨sockfd, ?_⟩
    cases hx : (download_file_loop sockfd w.chunks 0 0 1 out).exited with
    | true =>
      rw [download_file_exited tick w out sockfd hconn hx] at h
      simpa [hno] using h
    | false =>
      rw [download_file_no_exit tick w out sockfd hconn hx] at h
      simpa [hno] using h

/-- C9 fails as stated: when `recv` delivers 100 bytes (a length between 1 and
`MAX_RECV_DATA_SIZE`), `download_file` calls the flash write primitive with
length 100, which is not a multiple of `PFB_ALIGN_SIZE`. -/
theorem download_file_unaligned_write :
    (∀ c ∈ world100.chunks, c.recv = 0 ∨ (1 ≤ c.recv ∧ c.recv ≤ MAX_RECV_DATA_SIZE)) ∧
    Event.pfb_write_to_flash_aligned_256_bytes 0 100 0 ∈
      (download_file 1 world100 none).trace ∧
    ¬ PFB_ALIGN_SIZE ∣ 100 := by
  decide

/-- C9, amended: when every `recv` returns -1, 0 or a length of at most
`MAX_RECV_DATA_SIZE`, the flash writes of `download_file` are given exactly
the number of bytes `recv` returned as their length, the first starts at
offset 0 and each next one where the one before it ended, and no length
exceeds `MAX_RECV_DATA_SIZE`; offsets and lengths are multiples of
`PFB_ALIGN_SIZE` if every received length is one. -/
theorem download_file_write_arguments (tick : Nat) (w : World) (out : Option Nat)
    (hrecv : ∀ c ∈ w.chunks, -1 ≤ c.recv ∧ c.recv ≤ MAX_RECV_DATA_SIZE) :
    (runMonitor writeStep (0, none) (download_file tick w out).trace).isSome = true ∧
    (∀ offset len r, Event.pfb_write_to_flash_aligned_256_bytes offset len r ∈
      (download_file tick w out).trace → len ≤ MAX_RECV_DATA_SIZE) ∧
    ((∀ c ∈ w.chunks, PFB_ALIGN_SIZE ∣ c.recv.toNat) →
      ∀ offset len r, Event.pfb_write_to_flash_aligned_256_bytes offset len r ∈
        (download_file tick w out).trace → PFB_ALIGN_SIZE ∣ offset ∧ PFB_ALIGN_SIZE ∣ len) := by
  refine ⟨?_, ?_, ?_⟩
  · have hc := download_file_connect_ofConnect tick w.getaddrinfo
    have hm : runMonitor writeStep (0, none) (download_file_connect tick w.getaddrinfo).2.2
        = some (0, none) :=
      runMonitor_skip _ _ _ (fun e he => ofConnect_writeStep _ e (hc e he))
    cases hconn : (download_file_connect tick w.getaddrinfo).1 with
    | none =>
      rw [download_file_no_connection tick w out hconn]
      simp [runMonitor_append, runMonitor, writeStep, hm]
    | some sockfd =>
      have hl := download_file_loop_writeStep sockfd w.chunks 0 0 1 out
        (fun c hc' => (hrecv c hc').1)
      obtain ⟨s, hs⟩ := Option.isSome_iff_exists.mp hl
      cases hx : (download_file_loop sockfd w.chunks 0 0 1 out).exited with
      | true =>
        rw [download_file_exited tick w out sockfd hconn hx]
        simp [runMonitor_append, runMonitor, writeStep, hm, hs]
      | false =>
        rw [download_file_no_exit tick w out sockfd hconn hx]
        simp [runMonitor_append, runMonitor, writeStep, hm, hs]
  · intro offset len r hmem
    obtain ⟨sockfd, hm⟩ := download_file_write_mem tick w out offset len r hmem
    refine (download_file_loop_write_args sockfd w.chunks 0 0 1 out
      (fun n => n ≤ MAX_RECV_DATA_SIZE) (fun c hc => ?_) (fun _ => True) trivial
      (fun _ _ _ _ => trivial) offset len r hm).2
    have := (hrecv c hc).2
    omega
  · intro hal offset len r hmem
    obtain ⟨sockfd, hm⟩ := download_file_write_mem tick w out offset len r hmem
    exact download_file_loop_write_args sockfd w.chunks 0 0 1 out
      (fun n => PFB_ALIGN_SIZE ∣ n) hal (fun n => PFB_ALIGN_SIZE ∣ n) (Nat.dvd_zero _)
      (fun c hc n hn => Nat.dvd_add hn (hal c hc)) offset len r hm

theorem download_file_write_arguments_witness :
    (∀ c ∈ world256.chunks, -1 ≤ c.recv ∧ c.recv ≤ MAX_RECV_DATA_SIZE) ∧
    (∀ offset len r, Event.pfb_write_to_flash_aligned_256_bytes offset len r ∈
        (download_file 1 world256 none).trace →
      PFB_ALIGN_SIZE ∣ offset ∧ PFB_ALIGN_SIZE ∣ len) :=
  ⟨by decide,
   (download_file_write_arguments 1 world256 none (by decide)).2.2 (by decide)⟩

/-! ## The shape of the traces of `connect_to_server`, `wifi_init` -/

theorem connect_to_server_for_ofSockets (l : List AddrInfo) (s : Option Int) :
    ∀ e ∈ (connect_to_server_for l s).2, e.ofSockets = true := by
  induction l generalizing s with
  | nil => simp [connect_to_server_for]
  | cons p l ih =>
    intro e he
    simp only [connect_to_server_for] at he
    split_ifs at he
    · simp only [List.mem_cons] at he
      rcases he with rfl | rfl | he
      · rfl
      · rfl
      · exact ih _ e he
    · simp only [List.mem_cons] at he
      rcases he with rfl | rfl | rfl | rfl | he
      · rfl
      · rfl
      · rfl
      · rfl
      · exact ih _ e he
    · simp only [List.mem_cons, List.mem_singleton] at he
      rcases he with rfl | rfl | he
      · rfl
      · rfl
      · simp at he

theorem connect_to_server_shape (g : GetAddrInfo) :
    ∃ inner : List Event,
      (connect_to_server g).2 =
        .call_connect_to_server :: (inner ++ [.ret_connect_to_server (connect_to_server g).1]) ∧
      ∀ e ∈ inner, e.ofSockets = true := by
  unfold connect_to_server
  split_ifs with h
  · refine ⟨[.getaddrinfo g.ret, .LOG .download .ERR .getaddrinfo_failed,
      .freeaddrinfo false], by simp, ?_⟩
    intro e he
    simp only [List.mem_cons] at he
    rcases he with rfl | rfl | rfl | he
    all_goals first | rfl | simp at he
  · have hfor := connect_to_server_for_ofSockets g.servinfo none
    split
    · rename_i sockfd t heq
      rw [heq] at hfor
      refine ⟨[.getaddrinfo g.ret] ++ t ++ [.close sockfd, .freeaddrinfo true,
        .LOG .download .ERR .server_unreachable], by simp, ?_⟩
      intro e he
      simp only [List.mem_append, List.mem_cons] at he
      rcases he with ((rfl | he) | he) | (rfl | rfl | rfl | he)
      all_goals first | rfl | exact hfor e he | simp at he
    · rename_i p sockfd t heq
      rw [heq] at hfor
      refine ⟨[.getaddrinfo g.ret] ++ t ++ [.inet_ntop p.ai_addr,
        .LOG .download .INF (.server_connecting p.ai_addr), .freeaddrinfo true], by simp, ?_⟩
      intro e he
      simp only [List.mem_append, List.mem_cons] at he
      rcases he with ((rfl | he) | he) | (rfl | rfl | rfl | he)
      all_goals first | rfl | exact hfor e he | simp at he

theorem wifi_init_loop_ofWifi (l : List Int) :
    ∀ e ∈ (wifi_init_loop l).2.2, e.ofWifi = true := by
  induction l with
  | nil => simp [wifi_init_loop]
  | cons r l ih =>
    intro e he
    simp only [wifi_init_loop] at he
    split_ifs at he
    · simp only [List.mem_cons] at he
      rcases he with rfl | rfl | rfl | he
      · rfl
      · rfl
      · rfl
      · exact ih e he
    · simp only [List.mem_singleton] at he
      subst he
      rfl

theorem wifi_init_ofWifi (w : World) : ∀ e ∈ (wifi_init w).trace, e.ofWifi = true := by
  intro e he
  have hl := wifi_init_loop_ofWifi w.wifi_connect
  by_cases h0 : w.cyw43_arch_init = 0
  · cases h1 : (wifi_init_loop w.wifi_connect).1 with
    | true =>
      simp [wifi_init, h0, h1] at he
      rcases he with rfl | rfl | rfl | he | rfl
      all_goals first | rfl | exact hl e he
    | false =>
      simp [wifi_init, h0, h1] at he
      rcases he with rfl | rfl | rfl | he
      all_goals first | rfl | exact hl e he
  · simp [wifi_init, h0] at he
    rcases he with rfl | rfl | rfl
    all_goals rfl

/-! ## Every call of `download_file` that returns has consumed a chunk -/

theorem download_file_loop_consumes (sockfd : Int) (chunks : List Chunk)
    (fo counter : Nat) (ret : Int) (out : Option Nat)
    (h : (download_file_loop sockfd chunks fo counter ret out).exited = true) :
    (download_file_loop sockfd chunks fo counter ret out).chunks.length < chunks.length := by
  induction chunks generalizing fo counter with
  | nil => simp [download_file_loop] at h
  | cons c rest ih =>
    rcases c.five_ways with h0 | h0 | ⟨h1, h2, h3⟩ | ⟨h1, h2, h3, h4⟩ | h0
    · rw [download_file_loop_recv_error _ _ _ _ _ _ _ h0]
      simp
    · rw [download_file_loop_closed _ _ _ _ _ _ _ h0]
      simp
    · rw [download_file_loop_write_failed _ _ _ _ _ _ _ h1 h2 h3]
      simp
    · rw [download_file_loop_send_failed _ _ _ _ _ _ _ h1 h2 h3 h4]
      simp
    · rw [download_file_loop_pass _ _ _ _ _ _ _ h0] at h ⊢
      have := ih _ _ h
      simp only [List.length_cons]
      exact Nat.lt_succ_of_lt this

theorem download_file_consumes (tick : Nat) (w : World) (out : Option Nat) (r : Int)
    (h : (download_file tick w out).ret = some r) :
    (download_file tick w out).world.chunks.length < w.chunks.length := by
  cases hconn : (download_file_connect tick w.getaddrinfo).1 with
  | none =>
    rw [download_file_no_connection tick w out hconn] at h
    simp at h
  | some sockfd =>
    cases hx : (download_file_loop sockfd w.chunks 0 0 1 out).exited with
    | true =>
      rw [download_file_exited tick w out sockfd hconn hx]
      exact download_file_loop_consumes sockfd w.chunks 0 0 1 out hx
    | false =>
      rw [download_file_no_exit tick w out sockfd hconn hx] at h
      simp at h

theorem download_task_loop_fuel (tick : Nat) (fuel : Nat) (w : World) (bs : Option Nat)
    (h : w.chunks.length < fuel) :
    (download_task_loop tick fuel w bs).ending ≠ .out_of_fuel := by
  induction fuel generalizing w bs with
  | zero => omega
  | succ n ih =>
    simp only [download_task_loop]
    cases hr : (download_file tick w bs).ret with
    | none => simp
    | some r =>
      simp only
      split_ifs with h0
      · have := download_file_consumes tick w bs r hr
        exact ih _ _ (by omega)
      · simp

/-! ## The shape of the trace of `download_task` -/

/-- The session loop as `download_task` runs it. -/
theorem download_task_shape (tick : Nat) (w : World) :
    (∃ pre : List Event, (∀ e ∈ pre, e.ofBoot = true) ∧
      (download_task tick w).ending ≠ .returned ∧
      (download_task tick w).trace = pre) ∨
    (∃ pre mid : List Event, ∃ s : SessionsResult,
      (∀ e ∈ pre, e.ofBoot = true) ∧ (∀ e ∈ mid, e.ofBoot = true) ∧
      s = download_task_loop tick ((wifi_init w).world.chunks.length + 1)
            (wifi_init w).world none ∧
      s.ending ≠ .out_of_fuel ∧
      (download_task tick w).ending = s.ending ∧
      (download_task tick w).trace = pre ++ .pfb_firmware_commit :: mid ++ s.trace ++
        (if s.ending = .returned then
          [.LOG .download .INF (.performing_update s.binary_size),
           .pfb_mark_download_slot_as_valid, .pfb_perform_update]
         else [])) := by
  have hwifi := wifi_init_ofWifi w
  have hpre : ∀ e ∈ Event.LOG .download .INF .download_task_started :: (wifi_init w).trace,
      e.ofBoot = true := by
    intro e he
    simp only [List.mem_cons] at he
    rcases he with rfl | he
    · rfl
    · have := hwifi e he
      revert this
      cases e <;> simp [Event.ofBoot, Event.ofWifi]
      rename_i m l msg
      cases m <;> simp
  cases hi : (wifi_init w).ending with
  | returned =>
    right
    have hfuel := download_task_loop_fuel tick ((wifi_init w).world.chunks.length + 1)
      (wifi_init w).world none (Nat.lt_succ_self _)
    refine ⟨.LOG .download .INF .download_task_started :: (wifi_init w).trace,
      [.pfb_is_after_firmware_update (wifi_init w).world.is_after_firmware_update] ++
      (if (wifi_init w).world.is_after_firmware_update then
        [.LOG .download .INF .new_firmware] else []) ++
      [.pfb_is_after_rollback (wifi_init w).world.is_after_rollback] ++
      (if (wifi_init w).world.is_after_rollback then
        [.LOG .download .WRN .rollback_performed] else []),
      _, hpre, ?_, rfl, hfuel, ?_, ?_⟩
    · intro e he
      simp only [List.mem_append, List.mem_cons, List.mem_singleton, List.not_mem_nil,
        or_false] at he
      rcases he with ((rfl | he) | rfl) | he
      · rfl
      · split_ifs at he
        · simp only [List.mem_singleton] at he
          subst he
          rfl
        · simp at he
      · rfl
      · split_ifs at he
        · simp only [List.mem_singleton] at he
          subst he
          rfl
        · simp at he
    · simp only [download_task, hi]
      cases hs : (download_task_loop tick ((wifi_init w).world.chunks.length + 1)
        (wifi_init w).world none).ending <;> simp
    · simp only [download_task, hi]
      cases hs : (download_task_loop tick ((wifi_init w).world.chunks.length + 1)
        (wifi_init w).world none).ending <;> simp
  | exited st =>
    left
    refine ⟨_, hpre, ?_, ?_⟩ <;> simp [download_task, hi]
  | stalled =>
    left
    refine ⟨_, hpre, ?_, ?_⟩ <;> simp [download_task, hi]
  | out_of_fuel =>
    left
    refine ⟨_, hpre, ?_, ?_⟩ <;> simp [download_task, hi]

/-! ## Slot initialisation (C6) -/

theorem slotStep_ofSockets (e : Event) (h : e.ofSockets = true) :
    slotStep .initialised e = some .initialised := by
  cases e <;> simp_all [Event.ofSockets, slotStep]

theorem slotStep_ofTransfer (e : Event) (h : e.ofTransfer = true) :
    slotStep .connected e = some .connected := by
  cases e <;> simp_all [Event.ofTransfer, slotStep]

theorem slotStep_ofBoot (e : Event) (h : e.ofBoot = true) :
    slotStep .idle e = some .idle := by
  cases e <;> simp_all [Event.ofBoot, Event.ofWifi, slotStep]

theorem slotStep_connect_to_server (g : GetAddrInfo) :
    runMonitor slotStep .initialised (connect_to_server g).2 =
      some (if (connect_to_server g).1 = -1 then .initialised else .connected) := by
  obtain ⟨inner, hshape, hin⟩ := connect_to_server_shape g
  rw [hshape]
  have hm : runMonitor slotStep .initialised inner = some .initialised :=
    runMonitor_skip _ _ _ (fun e he => slotStep_ofSockets e (hin e he))
  by_cases h : (connect_to_server g).1 = -1 <;>
    simp [runMonitor, slotStep, runMonitor_append, hm, h]

theorem download_file_connect_retry (tick : Nat) (g : GetAddrInfo) (q : List GetAddrInfo)
    (h : (connect_to_server g).1 = -1) :
    download_file_connect tick (g :: q) =
      ((download_file_connect tick q).1, (download_file_connect tick q).2.1,
       (connect_to_server g).2 ++
         [.vTaskDelay (10000 / tick), .LOG .download .INF .server_retrying] ++
         (download_file_connect tick q).2.2) := by
  simp [download_file_connect, h]

theorem download_file_connect_done (tick : Nat) (g : GetAddrInfo) (q : List GetAddrInfo)
    (h : (connect_to_server g).1 ≠ -1) :
    download_file_connect tick (g :: q) =
      (some (connect_to_server g).1, q, (connect_to_server g).2) := by
  simp [download_file_connect, h]

theorem slotStep_connect (tick : Nat) (q : List GetAddrInfo) :
    runMonitor slotStep .initialised (download_file_connect tick q).2.2 =
      some (if (download_file_connect tick q).1 = none then .initialised else .connected) := by
  induction q with
  | nil => simp [download_file_connect, runMonitor, slotStep]
  | cons g q ih =>
    have hg := slotStep_connect_to_server g
    by_cases h : (connect_to_server g).1 = -1
    · rw [download_file_connect_retry tick g q h]
      simp [runMonitor_append, hg, h, runMonitor, slotStep, ih]
    · rw [download_file_connect_done tick g q h]
      simp [hg, h]

/-- After a call of `download_file`, entered with no call in progress or after
an earlier connected call, the slot monitor has accepted the trace and stands
at `initialised` or `connected`; at `connected` if the call returned. -/
theorem slotStep_download_file (tick : Nat) (w : World) (out : Option Nat) (s : SlotState)
    (hs : s = .idle ∨ s = .connected) :
    ∃ s', runMonitor slotStep s (download_file tick w out).trace = some s' ∧
      (s' = .initialised ∨ s' = .connected) ∧
      ((download_file tick w out).ret ≠ none → s' = .connected) := by
  have hc := slotStep_connect tick w.getaddrinfo
  have h0 : ∀ t, runMonitor slotStep s
      (.call_download_file :: .pfb_initialize_download_slot :: t) =
      runMonitor slotStep .initialised t := by
    intro t
    rcases hs with rfl | rfl <;> simp [runMonitor, slotStep]
  cases hconn : (download_file_connect tick w.getaddrinfo).1 with
  | none =>
    rw [download_file_no_connection tick w out hconn]
    refine ⟨.initialised, ?_, Or.inl rfl, by simp⟩
    simp only [List.cons_append, List.nil_append, h0, hc, hconn, if_true]
  | some sockfd =>
    have hl : runMonitor slotStep .connected
        (download_file_loop sockfd w.chunks 0 0 1 out).trace = some .connected :=
      runMonitor_skip _ _ _ (fun e he =>
        slotStep_ofTransfer e (download_file_loop_ofTransfer _ _ _ _ _ _ e he))
    refine ⟨.connected, ?_, Or.inr rfl, fun _ => rfl⟩
    cases hx : (download_file_loop sockfd w.chunks 0 0 1 out).exited with
    | true =>
      rw [download_file_exited tick w out sockfd hconn hx]
      simp only [List.cons_append, List.nil_append]
      rw [h0, runMonitor_append, runMonitor_append, hc, hconn]
      simp [hl, runMonitor, slotStep]
    | false =>
      rw [download_file_no_exit tick w out sockfd hconn hx]
      simp only [List.cons_append, List.nil_append]
      rw [h0, runMonitor_append, hc, hconn]
      simp [hl]

theorem slotStep_download_task_loop (tick fuel : Nat) (w : World) (bs : Option Nat)
    (s : SlotState) (hs : s = .idle ∨ s = .connected) :
    ∃ s', runMonitor slotStep s (download_task_loop tick fuel w bs).trace = some s' ∧
      s' ≠ .entered := by
  induction fuel generalizing w bs s with
  | zero =>
    refine ⟨s, by simp [download_task_loop, runMonitor], ?_⟩
    rcases hs with rfl | rfl <;> simp
  | succ n ih =>
    obtain ⟨s1, h1, h2, h3⟩ := slotStep_download_file tick w bs s hs
    simp only [download_task_loop]
    cases hr : (download_file tick w bs).ret with
    | none =>
      refine ⟨s1, h1, ?_⟩
      rcases h2 with rfl | rfl <;> simp
    | some r =>
      have hs1 : s1 = .connected := h3 (by simp [hr])
      subst hs1
      simp only
      split_ifs with h0
      · obtain ⟨s2, k1, k2⟩ := ih (download_file tick w bs).world
          (download_file tick w bs).out_binary_size .connected (Or.inr rfl)
        refine ⟨s2, ?_, k2⟩
        simp [runMonitor_append, h1, runMonitor, slotStep, k1]
      · exact ⟨.connected, h1, by simp⟩

/-- C6 fails as stated: when the first connection attempt fails, the second
call of `connect_to_server` is made without a new slot initialisation since
the first one. -/
theorem download_task_connect_without_init :
    runMonitor freshSlotStep false (download_task 1 worldRetry).trace = none := by
  decide

theorem slotBalanced_append (a b : List Event) (ha : slotBalanced a)
    (hb : slotBalanced b) : slotBalanced (a ++ b) := by
  unfold slotBalanced at *
  simp only [List.count_append]
  omega

theorem slotBalanced_of_absent (t : List Event)
    (h1 : Event.pfb_initialize_download_slot ∉ t) (h2 : Event.call_download_file ∉ t) :
    slotBalanced t := by
  unfold slotBalanced
  rw [List.count_eq_zero.mpr h1, List.count_eq_zero.mpr h2]

theorem slotBalanced_of_ofConnect (t : List Event) (h : ∀ e ∈ t, e.ofConnect = true) :
    slotBalanced t :=
  slotBalanced_of_absent t (fun hm => by simpa [Event.ofConnect] using h _ hm)
    (fun hm => by simpa [Event.ofConnect] using h _ hm)

theorem slotBalanced_of_ofTransfer (t : List Event) (h : ∀ e ∈ t, e.ofTransfer = true) :
    slotBalanced t :=
  slotBalanced_of_absent t (fun hm => by simpa [Event.ofTransfer] using h _ hm)
    (fun hm => by simpa [Event.ofTransfer] using h _ hm)

theorem slotBalanced_of_ofBoot (t : List Event) (h : ∀ e ∈ t, e.ofBoot = true) :
    slotBalanced t :=
  slotBalanced_of_absent t (fun hm => by simpa [Event.ofBoot, Event.ofWifi] using h _ hm)
    (fun hm => by simpa [Event.ofBoot, Event.ofWifi] using h _ hm)

/-- Every call of `download_file` records one entry and one slot
initialisation. -/
theorem slotBalanced_download_file (tick : Nat) (w : World) (out : Option Nat) :
    (download_file tick w out).trace.count .pfb_initialize_download_slot = 1 ∧
    (download_file tick w out).trace.count .call_download_file = 1 := by
  have hc := slotBalanced_of_ofConnect _ (download_file_connect_ofConnect tick w.getaddrinfo)
  have hc1 : (download_file_connect tick w.getaddrinfo).2.2.count
      .pfb_initialize_download_slot = 0 :=
    List.count_eq_zero.mpr (fun hm => by
      simpa [Event.ofConnect] using download_file_connect_ofConnect tick w.getaddrinfo _ hm)
  have hc2 : (download_file_connect tick w.getaddrinfo).2.2.count .call_download_file = 0 := by
    unfold slotBalanced at hc
    omega
  cases hconn : (download_file_connect tick w.getaddrinfo).1 with
  | none =>
    rw [download_file_no_connection tick w out hconn]
    simp [List.count_cons, List.count_append, hc1, hc2]
  | some sockfd =>
    have hl := slotBalanced_of_ofTransfer _
      (download_file_loop_ofTransfer sockfd w.chunks 0 0 1 out)
    have hl1 : (download_file_loop sockfd w.chunks 0 0 1 out).trace.count
        .pfb_initialize_download_slot = 0 :=
      List.count_eq_zero.mpr (fun hm => by
        simpa [Event.ofTransfer] using
          download_file_loop_ofTransfer sockfd w.chunks 0 0 1 out _ hm)
    have hl2 : (download_file_loop sockfd w.chunks 0 0 1 out).trace.count
        .call_download_file = 0 := by
      unfold slotBalanced at hl
      omega
    cases hx : (download_file_loop sockfd w.chunks 0 0 1 out).exited with
    | true =>
      rw [download_file_exited tick w out sockfd hconn hx]
      simp [List.count_cons, List.count_append, hc1, hc2, hl1, hl2]
    | false =>
      rw [download_file_no_exit tick w out sockfd hconn hx]
      simp [List.count_cons, List.count_append, hc1, hc2, hl1, hl2]

theorem slotBalanced_download_task_loop (tick fuel : Nat) (w : World) (bs : Option Nat) :
    slotBalanced (download_task_loop tick fuel w bs).trace := by
  induction fuel generalizing w bs with
  | zero => simp [download_task_loop, slotBalanced]
  | succ n ih =>
    have h1 : slotBalanced (download_file tick w bs).trace := by
      obtain ⟨a, b⟩ := slotBalanced_download_file tick w bs
      unfold slotBalanced
      rw [a, b]
    simp only [download_task_loop]
    cases hr : (download_file tick w bs).ret with
    | none => exact h1
    | some r =>
      simp only
      split_ifs with h0
      · refine slotBalanced_append _ _ (slotBalanced_append _ _ h1 ?_) (ih _ _)
        simp [slotBalanced, List.count_cons]
      · exact h1

theorem slotBalanced_download_task (tick : Nat) (w : World) :
    slotBalanced (download_task tick w).trace := by
  rcases download_task_shape tick w with
    ⟨pre, hpre, _, ht⟩ | ⟨pre, mid, s, hpre, hmid, hs, _, _, ht⟩
  · rw [ht]
    exact slotBalanced_of_ofBoot _ hpre
  · rw [ht]
    have h2 : slotBalanced (.pfb_firmware_commit :: mid) := by
      have := slotBalanced_of_ofBoot _ hmid
      unfold slotBalanced at this ⊢
      simpa [List.count_cons] using this
    have h3 := slotBalanced_download_task_loop tick
      ((wifi_init w).world.chunks.length + 1) (wifi_init w).world none
    rw [← hs] at h3
    refine slotBalanced_append _ _
      (slotBalanced_append _ _ (slotBalanced_append _ _ (slotBalanced_of_ofBoot _ hpre) h2) h3)
      ?_
    split_ifs <;> simp [slotBalanced, List.count_cons]

/-- C6, amended: in every run of `download_task`, each call of `download_file`
initialises the download slot once, as the first thing it does, and the slot
is initialised nowhere else: the monitor `slotStep` accepts the trace and does
not end in `entered` (no call is left without its initialisation), there are
exactly as many slot initialisations as calls of `download_file`, and each
call of `download_file` records exactly one.  Every call of `connect_to_server`
is made after the initialisation of its own call of `download_file` (retries
within that call are not preceded by a new one); and no flash write occurs
between a slot initialisation and the next successful connection. -/
theorem download_task_slot_discipline (tick : Nat) (w : World) :
    (∃ s, runMonitor slotStep .idle (download_task tick w).trace = some s ∧
      s ≠ .entered) ∧
    (download_task tick w).trace.count .pfb_initialize_download_slot =
      (download_task tick w).trace.count .call_download_file ∧
    (∀ out, (download_file tick w out).trace.count .pfb_initialize_download_slot = 1 ∧
      (download_file tick w out).trace.count .call_download_file = 1) := by
  refine ⟨?_, slotBalanced_download_task tick w, fun out =>
    slotBalanced_download_file tick w out⟩
  rcases download_task_shape tick w with
    ⟨pre, hpre, _, ht⟩ | ⟨pre, mid, s, hpre, hmid, hs, _, _, ht⟩
  · refine ⟨.idle, ?_, by simp⟩
    rw [ht, runMonitor_skip _ _ _ (fun e he => slotStep_ofBoot e (hpre e he))]
  · have h1 : runMonitor slotStep .idle pre = some .idle :=
      runMonitor_skip _ _ _ (fun e he => slotStep_ofBoot e (hpre e he))
    have h2 : runMonitor slotStep .idle mid = some .idle :=
      runMonitor_skip _ _ _ (fun e he => slotStep_ofBoot e (hmid e he))
    obtain ⟨s', h3, h4⟩ := slotStep_download_task_loop tick
      ((wifi_init w).world.chunks.length + 1) (wifi_init w).world none .idle (Or.inl rfl)
    rw [← hs] at h3
    have h5 : runMonitor slotStep .idle (pre ++ .pfb_firmware_commit :: mid ++ s.trace) =
        some s' := by
      rw [runMonitor_append, runMonitor_append, h1]
      simp [runMonitor, slotStep, h2, h3]
    refine ⟨s', ?_, h4⟩
    rw [ht, runMonitor_append, h5]
    split_ifs <;> cases s' <;> simp_all [runMonitor, slotStep]

theorem download_task_slot_discipline_witness :
    (download_task 1 worldTwoSessions).trace.count .call_download_file = 2 ∧
    (download_task 1 worldTwoSessions).trace.count .pfb_initialize_download_slot = 2 ∧
    (download_task 1 worldTwoSessions).trace.count .call_connect_to_server = 3 ∧
    runMonitor slotStep .idle (download_task 1 worldTwoSessions).trace = some .connected := by
  have hc : (download_task 1 worldTwoSessions).trace.count .call_download_file = 2 := by
    decide
  exact ⟨hc, by rw [(download_task_slot_discipline 1 worldTwoSessions).2.1]; exact hc,
    by decide, by decide⟩

/-! ## Retry pacing (C7) -/

theorem updateStep_ofBoot (s : UpdateState) (e : Event) (h : e.ofBoot = true) :
    updateStep s e = some s := by
  cases e <;> cases s <;> simp_all [Event.ofBoot, Event.ofWifi, updateStep]

theorem updateStep_ofConnect (written : Bool) (e : Event) (h : e.ofConnect = true) :
    updateStep (.session written) e = some (.session written) := by
  cases e <;> simp_all [Event.ofConnect, updateStep]

theorem updateStep_passTrace (sockfd : Int) (fo counter : Nat) (c : Chunk) (written : Bool)
    (h : c.transferred) :
    runMonitor updateStep (.session written) (passTrace sockfd fo counter c) =
      some (.session (written || decide (0 < c.recv.toNat))) := by
  unfold passTrace
  split_ifs <;> simp [runMonitor, updateStep, h.2.2.1]

theorem download_file_loop_mono (sockfd : Int) (chunks : List Chunk)
    (fo counter : Nat) (ret : Int) (out : Option Nat) :
    fo ≤ (download_file_loop sockfd chunks fo counter ret out).flash_offset := by
  rw [download_file_loop_flash_offset]
  exact Nat.le_add_right _ _

theorem updateStep_download_file_loop (sockfd : Int) (chunks : List Chunk)
    (fo counter : Nat) (ret : Int) (out : Option Nat) (written : Bool) :
    runMonitor updateStep (.session written)
      (download_file_loop sockfd chunks fo counter ret out).trace =
      some (.session (written ||
        decide (fo < (download_file_loop sockfd chunks fo counter ret out).flash_offset))) := by
  induction chunks generalizing fo counter written with
  | nil => simp [download_file_loop, runMonitor]
  | cons c rest ih =>
    rcases c.five_ways with h0 | h0 | ⟨h1, h2, h3⟩ | ⟨h1, h2, h3, h4⟩ | h0
    · rw [download_file_loop_recv_error _ _ _ _ _ _ _ h0]
      simp [runMonitor, updateStep]
    · rw [download_file_loop_closed _ _ _ _ _ _ _ h0]
      simp [runMonitor, updateStep]
    · rw [download_file_loop_write_failed _ _ _ _ _ _ _ h1 h2 h3]
      simp [runMonitor, updateStep, h3]
    · rw [download_file_loop_send_failed _ _ _ _ _ _ _ h1 h2 h3 h4]
      simp [runMonitor, updateStep, h3]
    · rw [download_file_loop_pass _ _ _ _ _ _ _ h0]
      show runMonitor updateStep (.session written) (passTrace sockfd fo counter c ++ _) = _
      rw [runMonitor_append, updateStep_passTrace _ _ _ _ _ h0]
      simp only [Option.some_bind]
      rw [ih]
      have hm := download_file_loop_mono sockfd rest (fo + c.recv.toNat) (counter + 1) ret out
      generalize (download_file_loop sockfd rest (fo + c.recv.toNat) (counter + 1) ret
        out).flash_offset = F at hm
      generalize c.recv.toNat = n at hm
      show some (UpdateState.session ((written || decide (0 < n)) || decide (fo + n < F))) =
        some (UpdateState.session (written || decide (fo < F)))
      congr 2
      cases written
      · apply Bool.eq_iff_iff.mpr
        simp only [Bool.false_or, Bool.or_eq_true, decide_eq_true_eq]
        omega
      · simp

/-- The update monitor after a call of `download_file` made after the commit
or after a failed call: inside a session if the call did not return,
`succeeded` if it returned 0 and `failed` otherwise. -/
theorem updateStep_download_file (tick : Nat) (w : World) (out : Option Nat)
    (s : UpdateState) (hs : s = .committed ∨ s = .failed) :
    ∃ s', runMonitor updateStep s (download_file tick w out).trace = some s' ∧
      ((download_file tick w out).ret = none → ∃ written, s' = .session written) ∧
      (∀ r, (download_file tick w out).ret = some r →
        s' = if r = 0 then .succeeded else .failed) := by
  have hc := download_file_connect_ofConnect tick w.getaddrinfo
  have hm : runMonitor updateStep (.session false)
      (download_file_connect tick w.getaddrinfo).2.2 = some (.session false) :=
    runMonitor_skip _ _ _ (fun e he => updateStep_ofConnect _ e (hc e he))
  have h0 : ∀ t, runMonitor updateStep s
      (.call_download_file :: .pfb_initialize_download_slot :: t) =
      runMonitor updateStep (.session false) t := by
    intro t
    rcases hs with rfl | rfl <;> simp [runMonitor, updateStep]
  cases hconn : (download_file_connect tick w.getaddrinfo).1 with
  | none =>
    rw [download_file_no_connection tick w out hconn]
    refine ⟨.session false, ?_, fun _ => ⟨false, rfl⟩, by simp⟩
    simp only [List.cons_append, List.nil_append]
    rw [h0, hm]
  | some sockfd =>
    have hl := updateStep_download_file_loop sockfd w.chunks 0 0 1 out false
    have hres := download_file_loop_result sockfd w.chunks 0 0 1 out
    cases hx : (download_file_loop sockfd w.chunks 0 0 1 out).exited with
    | true =>
      rw [download_file_exited tick w out sockfd hconn hx]
      simp only [List.cons_append, List.nil_append]
      rw [h0, runMonitor_append, runMonitor_append, hm]
      simp only [Option.some_bind, hl]
      by_cases hr : (download_file_loop sockfd w.chunks 0 0 1 out).ret = 0
      · have hpos : 0 < (download_file_loop sockfd w.chunks 0 0 1 out).flash_offset := by
          have h2 := hres.2.1
          rw [hr] at h2
          by_contra hn
          have h0' : (download_file_loop sockfd w.chunks 0 0 1 out).flash_offset = 0 := by
            omega
          rw [h0'] at h2
          simp at h2
        refine ⟨.succeeded, ?_, by simp, by simp [hr]⟩
        simp [runMonitor, updateStep, hr, hpos]
      · refine ⟨.failed, ?_, by simp, by simp [hr]⟩
        simp [runMonitor, updateStep, hr]
    | false =>
      rw [download_file_no_exit tick w out sockfd hconn hx]
      simp only [List.cons_append, List.nil_append]
      rw [h0, runMonitor_append, hm]
      simp only [Option.some_bind, hl]
      exact ⟨_, rfl, fun _ => ⟨_, rfl⟩, by simp⟩

theorem updateStep_download_task_loop (tick fuel : Nat) (w : World) (bs : Option Nat)
    (s : UpdateState) (hfuel : w.chunks.length < fuel)
    (hs : s = .committed ∨ s = .failed) :
    ∃ s', runMonitor updateStep s (download_task_loop tick fuel w bs).trace = some s' ∧
      s' ≠ .failed ∧
      ((download_task_loop tick fuel w bs).ending = .returned → s' = .succeeded) ∧
      ((download_task_loop tick fuel w bs).ending ≠ .returned → ∃ written,
        s' = .session written) := by
  induction fuel generalizing w bs s with
  | zero => omega
  | succ n ih =>
    obtain ⟨s1, h1, h2, h3⟩ := updateStep_download_file tick w bs s hs
    simp only [download_task_loop]
    cases hr : (download_file tick w bs).ret with
    | none =>
      obtain ⟨written, rfl⟩ := h2 hr
      exact ⟨_, h1, by simp, by simp, fun _ => ⟨written, rfl⟩⟩
    | some r =>
      have hs1 := h3 r hr
      simp only
      split_ifs with h0
      · rw [if_neg h0] at hs1
        subst hs1
        have hlt := download_file_consumes tick w bs r hr
        obtain ⟨s2, k1, k2, k3, k4⟩ := ih (download_file tick w bs).world
          (download_file tick w bs).out_binary_size .failed (by omega) (Or.inr rfl)
        refine ⟨s2, ?_, k2, k3, k4⟩
        rw [runMonitor_append, runMonitor_append, h1]
        simp [runMonitor, updateStep, k1]
      · have hr0 : r = 0 := by
          by_contra hne
          exact h0 hne
        rw [if_pos hr0] at hs1
        subst hs1
        exact ⟨_, h1, by simp, by simp, by simp⟩

/-- C4: in every run of `download_task`, `pfb_firmware_commit` is called
before the first call of `download_file`; a call of `download_file` returns 0
only if a flash write of at least one byte succeeded in it;
`pfb_mark_download_slot_as_valid` and then `pfb_perform_update` are called,
each once, only directly after a call of `download_file` that returned 0, and
they are called whenever the task runs to its end; a call that returned
non-zero is followed by another call of `download_file`, never by the
finalisation. -/
theorem download_task_update_order (tick : Nat) (w : World) :
    ∃ s, runMonitor updateStep .boot (download_task tick w).trace = some s ∧
      s ≠ .failed ∧ s ≠ .succeeded ∧ s ≠ .marked ∧
      ((download_task tick w).ending = .returned ↔ s = .updated) := by
  rcases download_task_shape tick w with
    ⟨pre, hpre, hend, ht⟩ | ⟨pre, mid, s, hpre, hmid, hs, hfuel, hend, ht⟩
  · refine ⟨.boot, ?_, by simp, by simp, by simp, ?_⟩
    · rw [ht, runMonitor_skip _ _ _ (fun e he => updateStep_ofBoot _ e (hpre e he))]
    · simp [hend]
  · have h1 : runMonitor updateStep .boot pre = some .boot :=
      runMonitor_skip _ _ _ (fun e he => updateStep_ofBoot _ e (hpre e he))
    have h2 : runMonitor updateStep .committed mid = some .committed :=
      runMonitor_skip _ _ _ (fun e he => updateStep_ofBoot _ e (hmid e he))
    obtain ⟨s', h3, h4, h5, h6⟩ := updateStep_download_task_loop tick
      ((wifi_init w).world.chunks.length + 1) (wifi_init w).world none .committed
      (Nat.lt_succ_self _) (Or.inl rfl)
    rw [← hs] at h3 h5 h6
    have h7 : runMonitor updateStep .boot (pre ++ .pfb_firmware_commit :: mid ++ s.trace) =
        some s' := by
      rw [runMonitor_append, runMonitor_append, h1]
      simp [runMonitor, updateStep, h2, h3]
    rw [ht, runMonitor_append, h7, hend]
    by_cases hret : s.ending = .returned
    · have := h5 hret
      subst this
      refine ⟨.updated, ?_, by simp, by simp, by simp, by simp [hret]⟩
      simp [hret, runMonitor, updateStep]
    · obtain ⟨written, rfl⟩ := h6 hret
      refine ⟨.session written, ?_, by simp, by simp, by simp, by simp [hret]⟩
      simp [hret, runMonitor]

theorem download_task_update_order_witness :
    (download_task 1 worldRetry).ending = .returned ∧
    runMonitor updateStep .boot (download_task 1 worldRetry).trace = some .updated := by
  obtain ⟨s, h1, _, _, _, h5⟩ := download_task_update_order 1 worldRetry
  have hret : (download_task 1 worldRetry).ending = .returned := by decide
  exact ⟨hret, by rw [h1, h5.mp hret]⟩

/-! ## Socket handles in `connect_to_server` (C10) -/

theorem handleStep_for (l : List AddrInfo) (s : Option Int) :
    (∀ p sockfd, (connect_to_server_for l s).1 = .connected p sockfd →
      sockfd ≠ -1 ∧
      runMonitor handleStep [] (connect_to_server_for l s).2 = some [sockfd]) ∧
    (∀ sockfd, (connect_to_server_for l s).1 = .exhausted sockfd →
      runMonitor handleStep [] (connect_to_server_for l s).2 = some []) := by
  induction l generalizing s with
  | nil => simp [connect_to_server_for, runMonitor]
  | cons p l ih =>
    simp only [connect_to_server_for]
    split_ifs with h1 h2
    · have := ih (some p.socket)
      simpa [runMonitor, handleStep, h1] using this
    · have := ih (some p.socket)
      simpa [runMonitor, handleStep, h1] using this
    · refine ⟨fun q sockfd h => ?_, fun sockfd h => by simp at h⟩
      simp only [ForExit.connected.injEq] at h
      obtain ⟨_, rfl⟩ := h
      exact ⟨h1, by simp [runMonitor, handleStep, h1]⟩

/-- Whenever `getaddrinfo` succeeds: if `connect_to_server` returns a socket,
the handle discipline holds and exactly that socket is left open; if it
returns -1, the `close` of line 140 is given a handle that is not open. -/
theorem connect_to_server_handles (g : GetAddrInfo) (hg : g.ret = 0) :
    ((connect_to_server g).1 ≠ -1 →
      runMonitor handleStep [] (connect_to_server g).2 = some [(connect_to_server g).1]) ∧
    ((connect_to_server g).1 = -1 →
      runMonitor handleStep [] (connect_to_server g).2 = none) := by
  obtain ⟨h1, h2⟩ := handleStep_for g.servinfo none
  unfold connect_to_server
  rw [if_neg (by simp [hg])]
  split
  · rename_i sockfd t heq
    rw [heq] at h2
    have ht := h2 sockfd rfl
    refine ⟨fun h => absurd rfl h, fun _ => ?_⟩
    show runMonitor handleStep [] (.call_connect_to_server :: .getaddrinfo g.ret :: (t ++
      [.close sockfd, .freeaddrinfo true, .LOG .download .ERR .server_unreachable,
       .ret_connect_to_server (-1)])) = none
    show runMonitor handleStep [] (t ++ _) = none
    rw [runMonitor_append, ht]
    cases sockfd <;> simp [runMonitor, handleStep]
  · rename_i p sockfd t heq
    rw [heq] at h1
    obtain ⟨hne, ht⟩ := h1 p sockfd rfl
    refine ⟨fun _ => ?_, fun h => absurd h hne⟩
    show runMonitor handleStep [] (.call_connect_to_server :: .getaddrinfo g.ret :: (t ++
      [.inet_ntop p.ai_addr, .LOG .download .INF (.server_connecting p.ai_addr),
       .freeaddrinfo true, .ret_connect_to_server sockfd])) = some [sockfd]
    show runMonitor handleStep [] (t ++ _) = some [sockfd]
    rw [runMonitor_append, ht]
    simp [runMonitor, handleStep]

/-- C10, at the failing input: `getaddrinfo` gives one candidate, `socket()`
returns 3 for it and `connect()` fails.  `connect_to_server` returns -1 and
calls `close(3)` twice, at line 132 and again at line 140, where 3 is no
longer open.  With no candidate at all, the `close` of line 140 is given the
unassigned `sockfd`; with one candidate for which `socket()` fails, it is
given -1. -/
theorem connect_to_server_double_close :
    connect_to_server ⟨0, [⟨1, 3, -1⟩]⟩ =
      (-1, [.call_connect_to_server, .getaddrinfo 0, .socket 3, .connect 3 1 (-1),
            .close (some 3), .LOG .download .WRN .connect_failed, .close (some 3),
            .freeaddrinfo true, .LOG .download .ERR .server_unreachable,
            .ret_connect_to_server (-1)]) ∧
    (connect_to_server ⟨0, [⟨1, 3, -1⟩]⟩).2.count (.close (some 3)) = 2 ∧
    runMonitor handleStep [] (connect_to_server ⟨0, [⟨1, 3, -1⟩]⟩).2 = none ∧
    Event.close none ∈ (connect_to_server ⟨0, []⟩).2 ∧
    Event.close (some (-1)) ∈ (connect_to_server ⟨0, [⟨1, -1, 0⟩]⟩).2 := by
  decide

/-! ## `wifi_init` (C8) -/

theorem wifi_init_loop_fails (fails rest : List Int) (h : ∀ r ∈ fails, r ≠ 0) :
    wifi_init_loop (fails ++ 0 :: rest) =
      (true, rest, fails.flatMap wifiRetry ++ [.cyw43_arch_wifi_connect_timeout_ms 30000 0]) := by
  induction fails with
  | nil => simp [wifi_init_loop]
  | cons r fs ih =>
    have hr : r ≠ 0 := h r (by simp)
    have ih := ih (fun x hx => h x (by simp [hx]))
    simp [wifi_init_loop, hr, ih, wifiRetry]

theorem countP_hasLevel_wifiRetry (l : Level) (fails : List Int) :
    (fails.flatMap wifiRetry).countP (Event.hasLevel l) = if l = .WRN then fails.length else 0 := by
  induction fails with
  | nil => simp
  | cons r fs ih =>
    simp only [List.flatMap_cons, List.countP_append, ih]
    cases l <;> simp [wifiRetry, List.countP_cons, Event.hasLevel, Nat.add_comm]

/-- C8: if `cyw43_arch_init` fails, `wifi_init` logs the error and calls
`exit(1)` without any association attempt.  Otherwise, if the association
fails n times (`fails`) and then succeeds, `wifi_init` returns and its trace
is: the start-up, then for each failure the attempt, one warning and a delay
of 1000 ms, then the successful attempt and one success line at info level;
in all exactly n warnings. -/
theorem wifi_init_retries (w : World) :
    (w.cyw43_arch_init ≠ 0 →
      (wifi_init w).ending = .exited 1 ∧
      (wifi_init w).trace =
        [.cyw43_arch_init w.cyw43_arch_init, .LOG .wifi .ERR .cyw43_failed, .exit 1]) ∧
    (∀ fails rest : List Int, w.cyw43_arch_init = 0 → (∀ r ∈ fails, r ≠ 0) →
      w.wifi_connect = fails ++ 0 :: rest →
      (wifi_init w).ending = .returned ∧
      (wifi_init w).world.wifi_connect = rest ∧
      (wifi_init w).trace =
        [.cyw43_arch_init 0, .cyw43_arch_enable_sta_mode, .LOG .wifi .INF .wifi_connecting] ++
        fails.flatMap wifiRetry ++
        [.cyw43_arch_wifi_connect_timeout_ms 30000 0, .LOG .wifi .INF .wifi_connected] ∧
      (wifi_init w).trace.countP (Event.hasLevel .WRN) = fails.length ∧
      (wifi_init w).trace.count (.LOG .wifi .INF .wifi_connected) = 1) := by
  refine ⟨fun h => ?_, fun fails rest h0 hf hw => ?_⟩
  · simp [wifi_init, h]
  · have hl := wifi_init_loop_fails fails rest hf
    have hc := countP_hasLevel_wifiRetry .WRN fails
    have hi : (fails.flatMap wifiRetry).count (.LOG .wifi .INF .wifi_connected) = 0 := by
      rw [List.count_eq_zero]
      simp [wifiRetry]
    simp [wifi_init, h0, hw, hl, List.countP_append, hc, List.countP_cons, Event.hasLevel,
      List.count_append, hi, List.count_cons]

theorem wifi_init_retries_witness :
    (∀ r ∈ ([1, -1, 2] : List Int), r ≠ 0) ∧
    (wifi_init ⟨0, [1, -1, 2, 0, 5], false, false, [], []⟩).trace.countP (Event.hasLevel .WRN) = 3 :=
  ⟨by decide,
   ((wifi_init_retries ⟨0, [1, -1, 2, 0, 5], false, false, [], []⟩).2 [1, -1, 2] [5] rfl
      (by decide) rfl).2.2.2.1⟩

end PicoFota
